import Mathlib

set_option maxHeartbeats 1000000

/-!
# Verification of the CSV bulk-import pipeline (frontend/src/components/Expenses.tsx)

Shallow embedding of the expense CSV import pipeline: the `parseCSV` function
(header mapping, row validation, date resolution) and the `handleImportExpenses`
driver, together with the JavaScript string/number primitives they rely
on (`trim`, `split`, `parseFloat`, `parseInt`, `Date` construction, template
literals).

Modelling conventions:
* JavaScript strings are Lean `String`s; the JS methods used by the source
  (`trim`, `split` with a one-character separator, `toLowerCase`) are embedded
  as executable functions over the underlying character lists.
* JavaScript numbers are embedded as `JSNum` (NaN, signed infinity, or an exact
  rational).  `parseFloat` follows the ECMAScript grammar for decimal literals;
  its result is kept exact rather than rounded to binary64, which is faithful
  for every property proved here (NaN-ness, sign, and small integer values).
* Exceptions are embedded with `Except Unit`: the one statement in `parseCSV`
  that can throw is `date.toISOString()` on an invalid `Date`, which happens
  exactly when `parseInt(month)` or `parseInt(year)` is NaN (the month and year
  always come from numeric dropdowns in the UI).  The JS `Date` range limit of
  ±1e8 days is not modelled; date arithmetic is proleptic Gregorian.
-/

/-- The whitespace set used by JS `String.prototype.trim`, `parseFloat` and
`parseInt` (ASCII whitespace plus the common Unicode space characters). -/
def isJsWs (c : Char) : Bool :=
  c = ' ' || c = '\t' || c = '\n' || c = '\r' || c = Char.ofNat 11 ||
  c = Char.ofNat 12 || c = Char.ofNat 160 || c = Char.ofNat 65279

/-- Characters of a string after JS `trim`: drop leading and trailing JS
whitespace. -/
def trimChars (cs : List Char) : List Char :=
  ((cs.dropWhile isJsWs).reverse.dropWhile isJsWs).reverse

/-- JS `String.prototype.trim`. -/
def jsTrim (s : String) : String :=
  (trimChars s.data).asString

/-- JS `String.prototype.split` with a one-character separator, on character
lists: `"".split(sep)` is `[""]`, and separators at the ends produce empty
fields, exactly as in JS. -/
def splitChars (sep : Char) : List Char → List (List Char)
  | [] => [[]]
  | c :: cs =>
    if c = sep then [] :: splitChars sep cs
    else
      match splitChars sep cs with
      | [] => [[c]]
      | g :: gs => (c :: g) :: gs

/-- JS `String.prototype.split` with a one-character separator. -/
def jsSplit (sep : Char) (s : String) : List String :=
  (splitChars sep s.data).map List.asString

/-- JS number-to-string digit characters. -/
def digitChar (d : Nat) : Char := Char.ofNat (48 + d)

/-- Decimal digits of `n`, most significant first, by fuel recursion
(`fuel ≥ n` suffices). -/
def toDecimalAux : Nat → Nat → List Char
  | 0, _ => []
  | fuel + 1, n =>
    if n = 0 then []
    else toDecimalAux fuel (n / 10) ++ [digitChar (n % 10)]

/-- The decimal digit characters of `n` (JS rendering of a nonnegative
integer). -/
def jsNatReprChars (n : Nat) : List Char :=
  if n = 0 then [digitChar 0] else toDecimalAux (n + 1) n

/-- JS template-literal rendering of a nonnegative integer (`${n}`). -/
def jsNatRepr (n : Nat) : String :=
  (jsNatReprChars n).asString

/-- Reads a digit string back to the number it denotes. -/
def ofChars (cs : List Char) : Nat :=
  cs.foldl (fun a c => 10 * a + (c.toNat - 48)) 0

/- ### Round-trip and injectivity of the decimal renderer -/

theorem ofChars_append (a b : List Char) :
    ofChars (a ++ b) = b.foldl (fun a c => 10 * a + (c.toNat - 48)) (ofChars a) := by
  simp [ofChars, List.foldl_append]

theorem digitChar_toNat (d : Nat) (h : d < 10) : (digitChar d).toNat = 48 + d := by
  interval_cases d <;> decide

theorem ofChars_toDecimalAux : ∀ fuel n, n ≤ fuel → ofChars (toDecimalAux fuel n) = n := by
  intro fuel
  induction fuel with
  | zero => intro n h; interval_cases n; decide
  | succ f ih =>
    intro n h
    by_cases h0 : n = 0
    · simp [toDecimalAux, h0, ofChars]
    · have hdiv : n / 10 ≤ f := by
        have : n / 10 < n := Nat.div_lt_self (Nat.pos_of_ne_zero h0) (by decide)
        omega
      have hrec := ih (n / 10) hdiv
      simp only [toDecimalAux, h0, if_false, ofChars_append, hrec]
      simp only [List.foldl_cons, List.foldl_nil]
      rw [digitChar_toNat (n % 10) (Nat.mod_lt n (by decide))]
      omega

theorem ofChars_jsNatReprChars (n : Nat) : ofChars (jsNatReprChars n) = n := by
  by_cases h0 : n = 0
  · simp [jsNatReprChars, h0, ofChars, digitChar]
  · simp only [jsNatReprChars, h0, if_false]
    exact ofChars_toDecimalAux (n + 1) n (Nat.le_succ n)

theorem jsNatReprChars_inj {a b : Nat} (h : jsNatReprChars a = jsNatReprChars b) :
    a = b := by
  have ha := ofChars_jsNatReprChars a
  have hb := ofChars_jsNatReprChars b
  rw [h, hb] at ha
  exact ha.symm

theorem asString_inj {a b : List Char} (h : a.asString = b.asString) : a = b := by
  have : (a.asString).data = (b.asString).data := by rw [h]
  simpa [List.asString] using this

theorem string_ext {a b : String} (h : a.data = b.data) : a = b := by
  cases a; cases b; exact congrArg String.mk h

theorem strAppend_data (a b : String) : (a ++ b).data = a.data ++ b.data := rfl

theorem jsNatRepr_inj {a b : Nat} (h : jsNatRepr a = jsNatRepr b) : a = b :=
  jsNatReprChars_inj (asString_inj h)

theorem toDecimalAux_digits : ∀ fuel n, ∀ c ∈ toDecimalAux fuel n, c.isDigit = true := by
  intro fuel
  induction fuel with
  | zero => intro n c hc; simp [toDecimalAux] at hc
  | succ f ih =>
    intro n c hc
    by_cases h0 : n = 0
    · simp [toDecimalAux, h0] at hc
    · simp only [toDecimalAux, h0, if_false, List.mem_append, List.mem_singleton] at hc
      rcases hc with hc | hc
      · exact ih (n / 10) c hc
      · subst hc
        have : n % 10 < 10 := Nat.mod_lt n (by decide)
        revert this
        generalize n % 10 = d
        intro hd
        interval_cases d <;> decide

theorem jsNatReprChars_digits (n : Nat) : ∀ c ∈ jsNatReprChars n, c.isDigit = true := by
  intro c hc
  by_cases h0 : n = 0
  · simp [jsNatReprChars, h0, digitChar] at hc
    subst hc; decide
  · simp only [jsNatReprChars, h0, if_false] at hc
    exact toDecimalAux_digits (n + 1) n c hc

/-- Two digit runs followed by a colon-headed suffix match up exactly:
the digit prefixes and the suffixes agree. -/
theorem digit_prefix_cancel :
    ∀ (a b u v : List Char), (∀ c ∈ a, c.isDigit = true) → (∀ c ∈ b, c.isDigit = true) →
      a ++ ':' :: u = b ++ ':' :: v → a = b ∧ u = v := by
  intro a
  induction a with
  | nil =>
    intro b u v _ hb h
    cases b with
    | nil => simpa using h
    | cons x xs =>
      simp only [List.nil_append, List.cons_append, List.cons.injEq] at h
      have hx : x.isDigit = true := hb x (by simp)
      rw [← h.1] at hx
      exact absurd hx (by decide)
  | cons x xs ih =>
    intro b u v ha hb h
    cases b with
    | nil =>
      simp only [List.cons_append, List.nil_append, List.cons.injEq] at h
      have hx : x.isDigit = true := ha x (by simp)
      rw [h.1] at hx
      exact absurd hx (by decide)
    | cons y ys =>
      simp only [List.cons_append, List.cons.injEq] at h
      obtain ⟨hxy, hrest⟩ := h
      have := ih ys u v (fun c hc => ha c (by simp [hc])) (fun c hc => hb c (by simp [hc])) hrest
      exact ⟨by simp [hxy, this.1], this.2⟩

/- ### JavaScript numbers: parseFloat / parseInt -/

/-- A JavaScript number as used by this pipeline: NaN, a signed infinity, or
an exact value.  (Values are kept as exact rationals; binary64 rounding is not
modelled, which is faithful for NaN-ness, sign and small integers.) -/
inductive JSNum where
  | nan : JSNum
  | inf : Bool → JSNum
  | val : Rat → JSNum
deriving DecidableEq

/-- Leading decimal digits of a character list and the rest. -/
def readDigits (cs : List Char) : List Char × List Char :=
  (cs.takeWhile Char.isDigit, cs.dropWhile Char.isDigit)

/-- The number denoted by a run of decimal digit characters. -/
def digitsToNat (ds : List Char) : Nat :=
  ds.foldl (fun a c => 10 * a + (c.toNat - 48)) 0

/-- Exponent digits after an optional sign (ECMAScript `SignedInteger`);
yields 0 when no digit follows, in which case the exponent part is not part of
the matched literal and contributes nothing. -/
def expDigits (neg : Bool) (cs : List Char) : Int :=
  let ds := (readDigits cs).1
  if ds = [] then 0
  else if neg then -(digitsToNat ds : Int) else (digitsToNat ds : Int)

/-- An ECMAScript `ExponentPart` at the front of the input, as an integer
exponent (0 when absent or malformed, which matches the longest-valid-prefix
rule: a malformed exponent part is simply not consumed). -/
def parseExpPart : List Char → Int
  | 'e' :: '+' :: r => expDigits false r
  | 'e' :: '-' :: r => expDigits true r
  | 'e' :: r => expDigits false r
  | 'E' :: '+' :: r => expDigits false r
  | 'E' :: '-' :: r => expDigits true r
  | 'E' :: r => expDigits false r
  | _ => 0

/-- `10 ^ e` as a rational, for an integer exponent. -/
def ratPow10 (e : Int) : Rat :=
  if 0 ≤ e then ((10 : Rat) ^ e.toNat) else 1 / ((10 : Rat) ^ (-e).toNat)

/-- ECMAScript `parseFloat`: skip leading whitespace, optional sign, then the
longest prefix that is `Infinity` or a decimal literal; NaN when there is no
such prefix. -/
def parseFloat (s : String) : JSNum :=
  let cs0 := s.data.dropWhile isJsWs
  let (neg, cs) :=
    match cs0 with
    | '+' :: r => (false, r)
    | '-' :: r => (true, r)
    | r => (false, r)
  if "Infinity".data.isPrefixOf cs then JSNum.inf neg
  else
    let (ip, r1) := readDigits cs
    let (fp, r2) :=
      match r1 with
      | '.' :: r => readDigits r
      | r => ([], r)
    if ip = [] ∧ fp = [] then JSNum.nan
    else
      let e := parseExpPart r2
      let mant : Rat :=
        if fp = [] then (digitsToNat ip : Rat)
        else (digitsToNat ip : Rat) + (digitsToNat fp : Rat) / ((10 : Rat) ^ fp.length)
      let mv : Rat := if e = 0 then mant else mant * ratPow10 e
      JSNum.val (if neg then -mv else mv)

/-- Value of a hexadecimal digit character, if it is one. -/
def hexVal (c : Char) : Option Nat :=
  if c.isDigit then some (c.toNat - 48)
  else if 'a' ≤ c ∧ c ≤ 'f' then some (c.toNat - 87)
  else if 'A' ≤ c ∧ c ≤ 'F' then some (c.toNat - 55)
  else none

/-- The number denoted by a run of hexadecimal digit characters. -/
def hexToNat (ds : List Char) : Nat :=
  ds.foldl (fun a c => 16 * a + ((hexVal c).getD 0)) 0

/-- ECMAScript `parseInt` with no radix argument: skip whitespace, optional
sign, `0x`/`0X` switches to base 16, then the longest digit run; `none` models
NaN. -/
def parseIntJS (s : String) : Option Int :=
  let cs0 := s.data.dropWhile isJsWs
  let (neg, cs) :=
    match cs0 with
    | '+' :: r => (false, r)
    | '-' :: r => (true, r)
    | r => (false, r)
  match cs with
  | '0' :: 'x' :: r =>
    let ds := r.takeWhile (fun c => (hexVal c).isSome)
    if ds = [] then none
    else some (if neg then -(hexToNat ds : Int) else (hexToNat ds : Int))
  | '0' :: 'X' :: r =>
    let ds := r.takeWhile (fun c => (hexVal c).isSome)
    if ds = [] then none
    else some (if neg then -(hexToNat ds : Int) else (hexToNat ds : Int))
  | _ =>
    let ds := (readDigits cs).1
    if ds = [] then none
    else some (if neg then -(digitsToNat ds : Int) else (digitsToNat ds : Int))

/- ### JS Date construction and ISO formatting (UTC host timezone assumed) -/

/-- Days from the civil epoch 1970-01-01 of the date `(y, m, d)` with
`m ∈ [1,12]`, proleptic Gregorian (standard civil-from-days arithmetic). -/
def daysFromCivil (y m d : Int) : Int :=
  let y' := if m ≤ 2 then y - 1 else y
  let era := Int.fdiv y' 400
  let yoe := y' - era * 400
  let mp := if m > 2 then m - 3 else m + 9
  let doy := Int.fdiv (153 * mp + 2) 5 + d - 1
  let doe := yoe * 365 + Int.fdiv yoe 4 - Int.fdiv yoe 100 + doy
  era * 146097 + doe - 719468

/-- Civil date `(y, m, d)` of a day count from the epoch (inverse of
`daysFromCivil`). -/
def civilFromDays (z0 : Int) : Int × Int × Int :=
  let z := z0 + 719468
  let era := Int.fdiv z 146097
  let doe := z - era * 146097
  let yoe := Int.fdiv (doe - Int.fdiv doe 1460 + Int.fdiv doe 36524 - Int.fdiv doe 146096) 365
  let y := yoe + era * 400
  let doy := doe - (365 * yoe + Int.fdiv yoe 4 - Int.fdiv yoe 100)
  let mp := Int.fdiv (5 * doy + 2) 153
  let d := doy - Int.fdiv (153 * mp + 2) 5 + 1
  let m := if mp < 10 then mp + 3 else mp - 9
  (if m ≤ 2 then y + 1 else y, m, d)

/-- Left-pad the decimal rendering of `n` with zeros to `len` characters. -/
def padNum (len : Nat) (n : Nat) : String :=
  let ds := jsNatReprChars n
  ((List.replicate (len - ds.length) (digitChar 0)) ++ ds).asString

/-- The date part of JS `toISOString` for a civil date (4-digit year for the
years 0–9999, extended ±6-digit form outside). -/
def isoDateString (y m d : Int) : String :=
  let ys :=
    if 0 ≤ y ∧ y ≤ 9999 then padNum 4 y.toNat
    else if y < 0 then "-" ++ padNum 6 (-y).toNat
    else "+" ++ padNum 6 y.toNat
  ys ++ "-" ++ padNum 2 m.toNat ++ "-" ++ padNum 2 d.toNat

/-- `new Date(year, monthIndex, day).toISOString().split('T')[0]` under a UTC
host timezone: two-digit years map to 19xx, the month index is normalised into
the year with floor semantics, and out-of-range days roll over through the
calendar, exactly as JS `MakeDay` does. -/
def jsDateToISO (year month day : Int) : String :=
  let y := if 0 ≤ year ∧ year ≤ 99 then 1900 + year else year
  let ym := y + Int.fdiv month 12
  let mn := Int.emod month 12
  let dayNum := daysFromCivil ym (mn + 1) 1 + (day - 1)
  let c := civilFromDays dayNum
  isoDateString c.1 c.2.1 c.2.2

/- ### The parsed row shape (`CSVRow` in the source) -/

/-- One parsed candidate expense (the object pushed onto `data` by
`parseCSV`). -/
structure CSVRow where
  item : String
  vendor : String
  price : JSNum
  date_purchased : String
  payment_method : String
  notes : String
  categories : String
deriving DecidableEq

/-- The `headerMappings` table of `parseCSV`: case-insensitively matched header
synonyms to field names. -/
def headerMappings (h : String) : Option String :=
  if h = "item" then some "item"
  else if h = "vendor" then some "vendor"
  else if h = "price" then some "price"
  else if h = "date" then some "date"
  else if h = "method" then some "method"
  else if h = "payment_method" then some "method"
  else if h = "payment method" then some "method"
  else if h = "notes" then some "notes"
  else if h = "note" then some "notes"
  else if h = "categories" then some "categories"
  else if h = "category" then some "categories"
  else if h = "cat" then some "categories"
  else none

/-- JS `String.prototype.toLowerCase` (ASCII case mapping, which covers every
synonym in the header table). -/
def jsToLower (s : String) : String :=
  (s.data.map Char.toLower).asString

/-- The `headerMap` object built by `parseCSV`: for each recognized field name,
the index of the (last, as JS object assignment overwrites) header cell mapped
to it. -/
def headerMapFun (header : List String) : String → Option Nat :=
  header.enum.foldl
    (fun acc p =>
      match headerMappings (jsToLower p.2) with
      | some f => fun k => if k = f then some p.1 else acc k
      | none => acc)
    (fun _ => none)

/-- `recognizedFields.length === 0` check of `parseCSV`: is at least one header
cell recognized? -/
def anyRecognized (header : List String) : Bool :=
  header.any (fun h => (headerMappings (jsToLower h)).isSome)

/-- The `while (row.length < header.length) row.push('')` padding loop. -/
def padRow (row : List String) (n : Nat) : List String :=
  row ++ List.replicate (n - row.length) ""

/-- `headerMap[f] !== undefined ? row[headerMap[f]] : ''`. -/
def getField (hm : String → Option Nat) (row : List String) (f : String) : String :=
  match hm f with
  | some j => row.getD j ""
  | none => ""

/-- A row-scoped error message: `` `Row ${rownum}: ${tail}` ``. -/
def rowMsg (rownum : Nat) (tail : String) : String :=
  "Row " ++ jsNatRepr rownum ++ ": " ++ tail

/-- The price-validation block of the data-row loop: `present` is
`headerMap['price'] !== undefined`; yields the value of the mutable `price`
variable together with the error messages the block pushed. -/
def priceResult (present : Bool) (rownum : Nat) (priceStr : String) : JSNum × List String :=
  if present then
    if jsTrim priceStr = "" then (JSNum.val 0, [rowMsg rownum "Price cannot be empty"])
    else
      match parseFloat priceStr with
      | JSNum.nan => (JSNum.nan, [rowMsg rownum ("Invalid price \"" ++ priceStr ++ "\"")])
      | p => (p, [])
  else (JSNum.val 0, [])

/-- The date-validation block of the data-row loop: `present` is
`headerMap['date'] !== undefined`; yields the value of the mutable `dateStr`
variable (defaulted to today's date) and the pushed error messages, or
`Except.error ()` where the JS code throws (`toISOString` on an invalid
`Date`, i.e. a day in range but `parseInt(month)` or `parseInt(year)`
NaN). -/
def dateResult (present : Bool) (rownum : Nat) (today month year dayStr : String) :
    Except Unit (String × List String) :=
  if present then
    if jsTrim dayStr = "" then Except.ok (today, [rowMsg rownum "Date cannot be empty"])
    else
      match parseIntJS dayStr with
      | none => Except.ok (today, [rowMsg rownum ("Invalid day \"" ++ dayStr ++ "\"")])
      | some day =>
        if day < 1 ∨ 31 < day then
          Except.ok (today, [rowMsg rownum ("Invalid day \"" ++ dayStr ++ "\"")])
        else
          match parseIntJS month, parseIntJS year with
          | some m, some y => Except.ok (jsDateToISO y m day, [])
          | _, _ => Except.error ()
  else Except.ok (today, [])

/-- The item-presence check of the data-row loop:
`if (headerMap['item'] !== undefined && !item.trim())`. -/
def itemEmptyErrs (present : Bool) (rownum : Nat) (item : String) : List String :=
  if present ∧ jsTrim item = "" then [rowMsg rownum "Item cannot be empty"] else []

/-- The vendor-presence check of the data-row loop:
`if (headerMap['vendor'] !== undefined && !vendor.trim())`. -/
def vendorEmptyErrs (present : Bool) (rownum : Nat) (vendor : String) : List String :=
  if present ∧ jsTrim vendor = "" then [rowMsg rownum "Vendor cannot be empty"] else []

/-- The object pushed onto `data` for an error-free row (with the `||` and
ternary defaults of the source). -/
def pushedRow (item vendor : String) (price : JSNum)
    (dateStr method notes categories : String) : CSVRow :=
  { item := if jsTrim item = "" then "Unknown Item" else jsTrim item
    vendor := if jsTrim vendor = "" then "Unknown Vendor" else jsTrim vendor
    price := if price = JSNum.nan ∨ price = JSNum.val 0 then JSNum.val 0 else price
    date_purchased := dateStr
    payment_method := if method = "" then "" else jsTrim method
    notes := if notes = "" then "" else jsTrim notes
    categories := if categories = "" then "" else jsTrim categories }

/-- The body of the `parseCSV` data-row loop for the line at index
`rownum - 1` of `lines` (so `rownum` is the 1-based line number used in the
error messages).  Returns the pushed row (if the row had no errors) together
with the error messages the row contributed, or `Except.error ()` when the JS
code would throw. -/
def processRow (hm : String → Option Nat) (hlen : Nat) (today month year : String)
    (rownum : Nat) (line : String) : Except Unit (Option CSVRow × List String) :=
  let row := padRow (jsSplit '\t' line) hlen
  let item := getField hm row "item"
  let vendor := getField hm row "vendor"
  let priceStr := getField hm row "price"
  let dayStr := getField hm row "date"
  let method := getField hm row "method"
  let notes := getField hm row "notes"
  let categories := getField hm row "categories"
  let itemErrs := itemEmptyErrs (hm "item").isSome rownum item
  let vendorErrs := vendorEmptyErrs (hm "vendor").isSome rownum vendor
  let pr := priceResult (hm "price").isSome rownum priceStr
  let dateRes := dateResult (hm "date").isSome rownum today month year dayStr
  match dateRes with
  | Except.error _ => Except.error ()
  | Except.ok dr =>
    let errs := itemErrs ++ vendorErrs ++ pr.2 ++ dr.2
    if errs = [] then
      Except.ok (some (pushedRow item vendor pr.1 dr.1 method notes categories), [])
    else Except.ok (none, errs)

/-- The `for (let i = 1; i < lines.length; i++)` loop of `parseCSV`: processes
the data lines starting at line index `i`, accumulating pushed rows and error
messages in order. -/
def parseRows (hm : String → Option Nat) (hlen : Nat) (today month year : String) :
    Nat → List String → Except Unit (List CSVRow × List String)
  | _, [] => Except.ok ([], [])
  | i, l :: ls =>
    match processRow hm hlen today month year (i + 1) l with
    | Except.error _ => Except.error ()
    | Except.ok (r, es) =>
      match parseRows hm hlen today month year (i + 1) ls with
      | Except.error _ => Except.error ()
      | Except.ok (rs, ess) =>
        Except.ok ((match r with | some row => row :: rs | none => rs), es ++ ess)

/-- The structural error for inputs with fewer than two lines. -/
def tooShortMsg : String := "CSV must have at least a header row and one data row"

/-- The structural error for a header with no recognized columns. -/
def noColsMsg (header : List String) : String :=
  "No recognized columns found. Available columns: " ++ String.intercalate ", " header ++
    ". Supported columns: Item, Vendor, Price, Date, Method, Notes"

/-- The `parseCSV` function of `Expenses.tsx` (lines 332–463).  `today` is the
value of `new Date().toISOString().split('T')[0]` (the default date used when
no date column is present or the cell is empty after an error). -/
def parseCSV (today content month year : String) : Except Unit (List CSVRow × List String) :=
  let lines := jsSplit '\n' (jsTrim content)
  if lines.length < 2 then Except.ok ([], [tooShortMsg])
  else
    let header := (jsSplit '\t' (lines.getD 0 "")).map jsTrim
    if anyRecognized header = false then Except.ok ([], [noColsMsg header])
    else parseRows (headerMapFun header) header.length today month year 1 (lines.drop 1)

/- ### Category splitting and the import driver (`handleImportExpenses`) -/

/-- The category splitter of `handleImportExpenses` (lines 526–531): when the
field is truthy and its trim is truthy, split on commas, trim each token and
keep the non-empty ones; otherwise no categories. -/
def splitCategories (s : String) : List String :=
  if s ≠ "" ∧ jsTrim s ≠ "" then
    ((jsSplit ',' s).map jsTrim).filter (fun c => c.length > 0)
  else []

/-- The `ExpenseCreate` payload built for each imported row. -/
structure ExpenseCreate where
  user_id : String
  item : String
  vendor : String
  price : JSNum
  date_purchased : String
  payment_method : Option String
  notes : Option String
  new_categories : List String
deriving DecidableEq

/-- The payload construction in the import loop (`payment_method` and `notes`
become `undefined` when falsy, i.e. the empty string). -/
def mkPayload (userId : String) (row : CSVRow) : ExpenseCreate :=
  { user_id := userId
    item := row.item
    vendor := row.vendor
    price := row.price
    date_purchased := row.date_purchased
    payment_method := if row.payment_method = "" then none else some row.payment_method
    notes := if row.notes = "" then none else some row.notes
    new_categories := splitCategories row.categories }

/-- How a failed `expenseApi.create` call presents to the catch block: an axios
error carrying an HTTP status (`httpStatus`, with the optional
`response.data.detail`), an axios error whose `response.status` is falsy
(`responseNoStatus`), a JS `Error` (`jsError`), or anything else
(`nonError`). -/
inductive StoreErr where
  | httpStatus : Nat → Option String → StoreErr
  | responseNoStatus : StoreErr
  | jsError : String → StoreErr
  | nonError : StoreErr
deriving DecidableEq

/-- Outcome of one `expenseApi.create` call. -/
inductive StoreResult where
  | ok : StoreResult
  | err : StoreErr → StoreResult
deriving DecidableEq

/-- The error-classification chain of the import loop's catch block
(lines 556–568). -/
def classifyStoreErr : StoreErr → String
  | StoreErr.httpStatus s d =>
    if s = 500 then "Server error (500) - expense may have been created but with issues"
    else if s ≠ 0 then "HTTP " ++ jsNatRepr s ++ ": " ++ d.getD "Unknown error"
    else "Network error - check backend connection"
  | StoreErr.responseNoStatus => "Network error - check backend connection"
  | StoreErr.jsError m => m
  | StoreErr.nonError => "Unknown error"

/-- `` `Row ${i + 1} (${row.item}): ` `` plus the classified reason, for the
row at 0-based index `i` of the parsed data. -/
def importErrMsg (i : Nat) (row : CSVRow) (e : StoreErr) : String :=
  "Row " ++ jsNatRepr (i + 1) ++ " (" ++ row.item ++ "): " ++ classifyStoreErr e

/-- Externally visible operations requested during an import run. -/
inductive ApiOp where
  | createExpense : Nat → ExpenseCreate → ApiOp
  | attachCategory : Nat → String → ApiOp
  | listExpenses : ApiOp
deriving DecidableEq

/-- Modelled from the spec: the backend `create-expense` operation is not under
`src/` (only `requirements.txt` of the backend is present); per §4.5/§6 of the
spec, a successful creation requests creation of each name in
`new_categories` and invokes `attach category` once per category name.  This
definition records those attach-category invocations for the row at index
`i`. -/
def attachOpsForCreate (i : Nat) (p : ExpenseCreate) : List ApiOp :=
  p.new_categories.map (ApiOp.attachCategory i)

/-- The sequential import loop of `handleImportExpenses` (lines 521–576):
submit each row in order, count successes and failures, accumulate classified
per-row error messages, and record the requested operations.  `submit i` is the
outcome of the `expenseApi.create` call for row `i`. -/
def runImport (submit : Nat → StoreResult) (userId : String) :
    Nat → List CSVRow → Nat × Nat × List String × List ApiOp
  | _, [] => (0, 0, [], [])
  | i, row :: rest =>
    let p := mkPayload userId row
    let r := runImport submit userId (i + 1) rest
    match submit i with
    | StoreResult.ok =>
      (r.1 + 1, r.2.1, r.2.2.1, (ApiOp.createExpense i p :: attachOpsForCreate i p) ++ r.2.2.2)
    | StoreResult.err e =>
      (r.1, r.2.1 + 1, importErrMsg i row e :: r.2.2.1, ApiOp.createExpense i p :: r.2.2.2)

/-- The transient CSV-import state held by the component
(`csvImportData`). -/
structure CsvImportState where
  csvContent : String
  month : String
  year : String
  parsedData : List CSVRow
  errors : List String
deriving DecidableEq

/-- The component state touched by `handleImportExpenses`. -/
structure UIState where
  showCSVModal : Bool
  csvImportData : CsvImportState
  error : Option String
deriving DecidableEq

/-- Aggregate result of an import run. -/
structure ImportOutcome where
  succeeded : Nat
  failed : Nat
  errors : List String
  trace : List ApiOp
deriving DecidableEq

/-- The `handleImportExpenses` handler (lines 502–605): no-op when there are no
parsed rows; error when no user is selected; otherwise run the sequential
submissions, always refresh the expense list (`fetchData`), and either surface the
aggregate error message (keeping the modal and its input intact) or, on total
success, clear the error, close the modal and reset the CSV input state.
`nowMonth`/`nowYear` are `new Date().getMonth().toString()` and
`new Date().getFullYear().toString()` at reset time. -/
def handleImportExpenses (submit : Nat → StoreResult) (userFound : Bool)
    (userId nowMonth nowYear : String) (st : UIState) : UIState × Option ImportOutcome :=
  if st.csvImportData.parsedData.length = 0 then (st, none)
  else if userFound = false then ({ st with error := some "Please select a user" }, none)
  else
    let r := runImport submit userId 0 st.csvImportData.parsedData
    let trace := r.2.2.2 ++ [ApiOp.listExpenses]
    let oc : ImportOutcome := ⟨r.1, r.2.1, r.2.2.1, trace⟩
    if r.2.1 > 0 then
      ({ st with error := some ("Import completed with errors: " ++ jsNatRepr r.1 ++
          " successful, " ++ jsNatRepr r.2.1 ++ " failed. Errors: " ++
          String.intercalate "; " r.2.2.1) }, some oc)
    else
      ({ showCSVModal := false
         csvImportData := ⟨"", nowMonth, nowYear, [], []⟩
         error := none }, some oc)

/- ### Statement helpers (definitional abbreviations of source expressions) -/

/-- `lines[0].split('\t').map(h => h.trim())`. -/
def headerOf (headerLine : String) : List String :=
  (jsSplit '\t' headerLine).map jsTrim

/-- The field value a data line yields for field `f` after padding:
`headerMap[f] !== undefined ? row[headerMap[f]] : ''`. -/
def fieldOf (hm : String → Option Nat) (hlen : Nat) (line f : String) : String :=
  getField hm (padRow (jsSplit '\t' line) hlen) f

/-- Whether the data-row loop pushes a row for this line (as opposed to
skipping it with `continue` after validation errors). -/
def lineEmits (hm : String → Option Nat) (hlen : Nat) (today month year : String)
    (rownum : Nat) (line : String) : Bool :=
  match processRow hm hlen today month year rownum line with
  | Except.ok (some _, _) => true
  | _ => false

/- ### String-disagreement helpers for the error-message lemmas -/

theorem char_at_ne {a b : String} (n : Nat) (ca cb : Char)
    (ha : a.data.get? n = some ca) (hb : b.data.get? n = some cb) (hne : ca ≠ cb) :
    a ≠ b := by
  intro h
  rw [h] at ha
  rw [hb] at ha
  exact hne (Option.some.inj ha).symm

theorem str_get_left (a b : String) (n : Nat) (c : Char)
    (h : n < a.data.length) (hc : a.data.get? n = some c) :
    (a ++ b).data.get? n = some c := by
  rw [strAppend_data, List.get?_append h]
  exact hc

theorem appended_get (A p C : String) (n : Nat) (c : Char)
    (h : n < A.data.length) (hc : A.data.get? n = some c) :
    (A ++ p ++ C).data.get? n = some c := by
  rw [strAppend_data, strAppend_data, List.append_assoc,
    List.get?_append (by exact h)]
  exact hc

theorem rowMsg_data (n : Nat) (t : String) :
    (rowMsg n t).data = 'R' :: 'o' :: 'w' :: ' ' :: (jsNatReprChars n ++ ':' :: ' ' :: t.data) := by
  show ((("Row " ++ jsNatRepr n) ++ ": ") ++ t).data = _
  rw [strAppend_data, strAppend_data, strAppend_data]
  have h1 : "Row ".data = ['R', 'o', 'w', ' '] := rfl
  have h2 : ": ".data = [':', ' '] := rfl
  have h3 : (jsNatRepr n).data = jsNatReprChars n := rfl
  rw [h1, h2, h3]
  simp [List.append_assoc]

theorem rowMsg_head (n : Nat) (t : String) : (rowMsg n t).data.get? 0 = some 'R' := by
  rw [rowMsg_data]
  rfl

theorem rowMsg_inj {n m : Nat} {t u : String} (h : rowMsg n t = rowMsg m u) :
    n = m ∧ t = u := by
  have hd := congrArg String.data h
  rw [rowMsg_data, rowMsg_data] at hd
  simp only [List.cons.injEq, true_and] at hd
  obtain ⟨h1, h2⟩ :=
    digit_prefix_cancel _ _ _ _ (jsNatReprChars_digits n) (jsNatReprChars_digits m) hd
  refine ⟨jsNatReprChars_inj h1, string_ext ?_⟩
  injection h2

theorem rowMsg_ne_tooShort (n : Nat) (t : String) : rowMsg n t ≠ tooShortMsg :=
  char_at_ne 0 'R' 'C' (rowMsg_head n t) (by decide) (by decide)

theorem rowMsg_ne_noCols (n : Nat) (t : String) (header : List String) :
    rowMsg n t ≠ noColsMsg header :=
  char_at_ne 0 'R' 'N' (rowMsg_head n t)
    (appended_get "No recognized columns found. Available columns: "
      (String.intercalate ", " header)
      ". Supported columns: Item, Vendor, Price, Date, Method, Notes" 0 'N'
      (by decide) (by decide)) (by decide)

theorem tailNe_item_invPrice (p : String) :
    "Item cannot be empty" ≠ "Invalid price \"" ++ p ++ "\"" :=
  char_at_ne 1 't' 'n' (by decide)
    (appended_get "Invalid price \"" p "\"" 1 'n' (by decide) (by decide)) (by decide)

theorem tailNe_item_invDay (d : String) :
    "Item cannot be empty" ≠ "Invalid day \"" ++ d ++ "\"" :=
  char_at_ne 1 't' 'n' (by decide)
    (appended_get "Invalid day \"" d "\"" 1 'n' (by decide) (by decide)) (by decide)

theorem tailNe_vendor_invPrice (p : String) :
    "Vendor cannot be empty" ≠ "Invalid price \"" ++ p ++ "\"" :=
  char_at_ne 0 'V' 'I' (by decide)
    (appended_get "Invalid price \"" p "\"" 0 'I' (by decide) (by decide)) (by decide)

theorem tailNe_vendor_invDay (d : String) :
    "Vendor cannot be empty" ≠ "Invalid day \"" ++ d ++ "\"" :=
  char_at_ne 0 'V' 'I' (by decide)
    (appended_get "Invalid day \"" d "\"" 0 'I' (by decide) (by decide)) (by decide)

theorem tailNe_priceEmpty_invPrice (p : String) :
    "Price cannot be empty" ≠ "Invalid price \"" ++ p ++ "\"" :=
  char_at_ne 0 'P' 'I' (by decide)
    (appended_get "Invalid price \"" p "\"" 0 'I' (by decide) (by decide)) (by decide)

theorem tailNe_priceEmpty_invDay (d : String) :
    "Price cannot be empty" ≠ "Invalid day \"" ++ d ++ "\"" :=
  char_at_ne 0 'P' 'I' (by decide)
    (appended_get "Invalid day \"" d "\"" 0 'I' (by decide) (by decide)) (by decide)

theorem tailNe_dateEmpty_invPrice (p : String) :
    "Date cannot be empty" ≠ "Invalid price \"" ++ p ++ "\"" :=
  char_at_ne 0 'D' 'I' (by decide)
    (appended_get "Invalid price \"" p "\"" 0 'I' (by decide) (by decide)) (by decide)

theorem tailNe_dateEmpty_invDay (d : String) :
    "Date cannot be empty" ≠ "Invalid day \"" ++ d ++ "\"" :=
  char_at_ne 0 'D' 'I' (by decide)
    (appended_get "Invalid day \"" d "\"" 0 'I' (by decide) (by decide)) (by decide)

theorem tailNe_invPrice_invDay (p d : String) :
    "Invalid price \"" ++ p ++ "\"" ≠ "Invalid day \"" ++ d ++ "\"" :=
  char_at_ne 8 'p' 'd'
    (appended_get "Invalid price \"" p "\"" 8 'p' (by decide) (by decide))
    (appended_get "Invalid day \"" d "\"" 8 'd' (by decide) (by decide)) (by decide)

/- ### Per-row characterization lemmas -/

theorem priceResult_shape (present : Bool) (rn : Nat) (s : String) :
    ∀ e ∈ (priceResult present rn s).2,
      e = rowMsg rn "Price cannot be empty" ∨ e = rowMsg rn ("Invalid price \"" ++ s ++ "\"") := by
  intro e he
  unfold priceResult at he
  split at he
  · split at he
    · simp at he; exact Or.inl he
    · split at he
      · simp at he; exact Or.inr he
      · simp at he
  · simp at he

theorem dateResult_shape (present : Bool) (rn : Nat) (today month year ds : String)
    (dr : String × List String) (h : dateResult present rn today month year ds = Except.ok dr) :
    ∀ e ∈ dr.2,
      e = rowMsg rn "Date cannot be empty" ∨ e = rowMsg rn ("Invalid day \"" ++ ds ++ "\"") := by
  intro e he
  unfold dateResult at h
  split at h
  · split at h
    · cases h; simp at he; exact Or.inl he
    · split at h
      · cases h; simp at he; exact Or.inr he
      · split at h
        · cases h; simp at he; exact Or.inr he
        · split at h
          · cases h; simp at he
          · cases h
  · cases h; simp at he

theorem dateResult_ok (present : Bool) (rn : Nat) (today month year ds : String)
    (mm yy : Int) (hM : parseIntJS month = some mm) (hY : parseIntJS year = some yy) :
    ∃ dr, dateResult present rn today month year ds = Except.ok dr := by
  unfold dateResult
  rw [hM, hY]
  split
  · split
    · exact ⟨_, rfl⟩
    · split
      · exact ⟨_, rfl⟩
      · split
        · exact ⟨_, rfl⟩
        · exact ⟨_, rfl⟩
  · exact ⟨_, rfl⟩

theorem processRow_eq (hm : String → Option Nat) (hlen : Nat) (today month year : String)
    (rn : Nat) (line : String) (dr : String × List String)
    (hdr : dateResult ((hm "date").isSome) rn today month year (fieldOf hm hlen line "date") =
      Except.ok dr) :
    processRow hm hlen today month year rn line =
      (if itemEmptyErrs (hm "item").isSome rn (fieldOf hm hlen line "item") ++
          vendorEmptyErrs (hm "vendor").isSome rn (fieldOf hm hlen line "vendor") ++
          (priceResult (hm "price").isSome rn (fieldOf hm hlen line "price")).2 ++ dr.2 = [] then
        Except.ok (some (pushedRow (fieldOf hm hlen line "item") (fieldOf hm hlen line "vendor")
          (priceResult (hm "price").isSome rn (fieldOf hm hlen line "price")).1 dr.1
          (fieldOf hm hlen line "method") (fieldOf hm hlen line "notes")
          (fieldOf hm hlen line "categories")), [])
      else
        Except.ok (none, itemEmptyErrs (hm "item").isSome rn (fieldOf hm hlen line "item") ++
          vendorEmptyErrs (hm "vendor").isSome rn (fieldOf hm hlen line "vendor") ++
          (priceResult (hm "price").isSome rn (fieldOf hm hlen line "price")).2 ++ dr.2)) := by
  simp only [processRow, fieldOf] at *
  rw [hdr]

theorem processRow_err (hm : String → Option Nat) (hlen : Nat) (today month year : String)
    (rn : Nat) (line : String)
    (hdr : dateResult ((hm "date").isSome) rn today month year (fieldOf hm hlen line "date") =
      Except.error ()) :
    processRow hm hlen today month year rn line = Except.error () := by
  simp only [processRow, fieldOf] at *
  rw [hdr]

theorem processRow_ok (hm : String → Option Nat) (hlen : Nat) (today month year : String)
    (rn : Nat) (line : String) (mm yy : Int)
    (hM : parseIntJS month = some mm) (hY : parseIntJS year = some yy) :
    ∃ out, processRow hm hlen today month year rn line = Except.ok out := by
  obtain ⟨dr, hdr⟩ :=
    dateResult_ok ((hm "date").isSome) rn today month year (fieldOf hm hlen line "date") mm yy hM hY
  rw [processRow_eq hm hlen today month year rn line dr hdr]
  split
  · exact ⟨_, rfl⟩
  · exact ⟨_, rfl⟩

theorem mem_ite_singleton {α : Type} {c : Prop} [Decidable c] {m e : α}
    (h : e ∈ (if c then [m] else [])) : e = m := by
  split at h
  · simpa using h
  · simp at h

theorem itemEmptyErrs_shape (present : Bool) (rn : Nat) (item : String) :
    ∀ e ∈ itemEmptyErrs present rn item, e = rowMsg rn "Item cannot be empty" := by
  intro e he
  exact mem_ite_singleton he

theorem vendorEmptyErrs_shape (present : Bool) (rn : Nat) (vendor : String) :
    ∀ e ∈ vendorEmptyErrs present rn vendor, e = rowMsg rn "Vendor cannot be empty" := by
  intro e he
  exact mem_ite_singleton he

theorem processRow_shape (hm : String → Option Nat) (hlen : Nat) (today month year : String)
    (rn : Nat) (line : String) (r : Option CSVRow) (es : List String)
    (h : processRow hm hlen today month year rn line = Except.ok (r, es)) :
    ∀ e ∈ es, ∃ tail, e = rowMsg rn tail := by
  intro e he
  cases hdr : dateResult ((hm "date").isSome) rn today month year (fieldOf hm hlen line "date") with
  | error u =>
    cases u
    rw [processRow_err hm hlen today month year rn line hdr] at h
    exact Except.noConfusion h
  | ok dr =>
    rw [processRow_eq hm hlen today month year rn line dr hdr] at h
    split at h
    · injection h with h'
      injection h' with hA hB
      subst hB
      simp at he
    · injection h with h'
      injection h' with hA hB
      subst hB
      simp only [List.append_assoc, List.mem_append] at he
      rcases he with he | he | he | he
      · exact ⟨_, itemEmptyErrs_shape _ rn _ e he⟩
      · exact ⟨_, vendorEmptyErrs_shape _ rn _ e he⟩
      · rcases priceResult_shape ((hm "price").isSome) rn (fieldOf hm hlen line "price") e he
          with h' | h' <;> exact ⟨_, h'⟩
      · rcases dateResult_shape ((hm "date").isSome) rn today month year
          (fieldOf hm hlen line "date") dr hdr e he with h' | h' <;> exact ⟨_, h'⟩

theorem processRow_emits_iff (hm : String → Option Nat) (hlen : Nat)
    (today month year : String) (rn : Nat) (line : String) (r : Option CSVRow) (es : List String)
    (h : processRow hm hlen today month year rn line = Except.ok (r, es)) :
    r.isSome = true ↔ es = [] := by
  cases hdr : dateResult ((hm "date").isSome) rn today month year (fieldOf hm hlen line "date") with
  | error u =>
    cases u
    rw [processRow_err hm hlen today month year rn line hdr] at h
    exact Except.noConfusion h
  | ok dr =>
    rw [processRow_eq hm hlen today month year rn line dr hdr] at h
    split at h
    · injection h with h'
      injection h' with hA hB
      subst hA; subst hB
      simp
    · injection h with h'
      injection h' with hA hB
      subst hA; subst hB
      rename_i hne
      refine ⟨fun hcontra => ?_, fun hcontra => absurd hcontra hne⟩
      simp at hcontra

theorem rowMsg_notMem {M : String} {rn : Nat} {t : String} (hM : M = rowMsg rn t)
    (l : List String) (hshape : ∀ e ∈ l, ∃ u, e = rowMsg rn u ∧ t ≠ u) : M ∉ l := by
  intro hmem
  obtain ⟨u, hu, hne⟩ := hshape M hmem
  rw [hM] at hu
  exact hne (rowMsg_inj hu).2

theorem processRow_item_empty (hm : String → Option Nat) (hlen : Nat)
    (today month year : String) (rn : Nat) (line : String)
    (hP : (hm "item").isSome = true) (hE : jsTrim (fieldOf hm hlen line "item") = "")
    (r : Option CSVRow) (es : List String)
    (h : processRow hm hlen today month year rn line = Except.ok (r, es)) :
    r = none ∧ es.count (rowMsg rn "Item cannot be empty") = 1 := by
  cases hdr : dateResult ((hm "date").isSome) rn today month year (fieldOf hm hlen line "date") with
  | error u =>
    cases u
    rw [processRow_err hm hlen today month year rn line hdr] at h
    exact Except.noConfusion h
  | ok dr =>
    rw [processRow_eq hm hlen today month year rn line dr hdr] at h
    have hI : itemEmptyErrs (hm "item").isSome rn (fieldOf hm hlen line "item") =
        [rowMsg rn "Item cannot be empty"] := by
      simp [itemEmptyErrs, hP, hE]
    rw [hI] at h
    split at h
    · rename_i hc
      simp at hc
    · injection h with h'
      injection h' with hA hB
      subst hA; subst hB
      refine ⟨rfl, ?_⟩
      have hrest : rowMsg rn "Item cannot be empty" ∉
          vendorEmptyErrs (hm "vendor").isSome rn (fieldOf hm hlen line "vendor") ++
          (priceResult (hm "price").isSome rn (fieldOf hm hlen line "price")).2 ++ dr.2 := by
        apply rowMsg_notMem rfl
        intro e he
        simp only [List.append_assoc, List.mem_append] at he
        rcases he with he | he | he
        · exact ⟨_, vendorEmptyErrs_shape _ rn _ e he, by decide⟩
        · rcases priceResult_shape ((hm "price").isSome) rn (fieldOf hm hlen line "price") e he
            with h' | h'
          · exact ⟨_, h', by decide⟩
          · exact ⟨_, h', tailNe_item_invPrice _⟩
        · rcases dateResult_shape ((hm "date").isSome) rn today month year
            (fieldOf hm hlen line "date") dr hdr e he with h' | h'
          · exact ⟨_, h', by decide⟩
          · exact ⟨_, h', tailNe_item_invDay _⟩
      have : ([rowMsg rn "Item cannot be empty"] ++
          vendorEmptyErrs (hm "vendor").isSome rn (fieldOf hm hlen line "vendor") ++
          (priceResult (hm "price").isSome rn (fieldOf hm hlen line "price")).2 ++ dr.2) =
          rowMsg rn "Item cannot be empty" ::
          (vendorEmptyErrs (hm "vendor").isSome rn (fieldOf hm hlen line "vendor") ++
          (priceResult (hm "price").isSome rn (fieldOf hm hlen line "price")).2 ++ dr.2) := by
        simp
      rw [this, List.count_cons_self,
        List.count_eq_zero.mpr (by simpa [List.append_assoc] using hrest)]

theorem processRow_vendor_empty (hm : String → Option Nat) (hlen : Nat)
    (today month year : String) (rn : Nat) (line : String)
    (hP : (hm "vendor").isSome = true) (hE : jsTrim (fieldOf hm hlen line "vendor") = "")
    (r : Option CSVRow) (es : List String)
    (h : processRow hm hlen today month year rn line = Except.ok (r, es)) :
    r = none ∧ es.count (rowMsg rn "Vendor cannot be empty") = 1 := by
  cases hdr : dateResult ((hm "date").isSome) rn today month year (fieldOf hm hlen line "date") with
  | error u =>
    cases u
    rw [processRow_err hm hlen today month year rn line hdr] at h
    exact Except.noConfusion h
  | ok dr =>
    rw [processRow_eq hm hlen today month year rn line dr hdr] at h
    have hV : vendorEmptyErrs (hm "vendor").isSome rn (fieldOf hm hlen line "vendor") =
        [rowMsg rn "Vendor cannot be empty"] := by
      simp [vendorEmptyErrs, hP, hE]
    rw [hV] at h
    split at h
    · rename_i hc
      simp at hc
    · injection h with h'
      injection h' with hA hB
      subst hA; subst hB
      refine ⟨rfl, ?_⟩
      have hI : rowMsg rn "Vendor cannot be empty" ∉
          itemEmptyErrs (hm "item").isSome rn (fieldOf hm hlen line "item") := by
        apply rowMsg_notMem rfl
        intro e he
        exact ⟨_, itemEmptyErrs_shape _ rn _ e he, by decide⟩
      have hPr : rowMsg rn "Vendor cannot be empty" ∉
          (priceResult (hm "price").isSome rn (fieldOf hm hlen line "price")).2 := by
        apply rowMsg_notMem rfl
        intro e he
        rcases priceResult_shape ((hm "price").isSome) rn (fieldOf hm hlen line "price") e he
          with h' | h'
        · exact ⟨_, h', by decide⟩
        · exact ⟨_, h', tailNe_vendor_invPrice _⟩
      have hD : rowMsg rn "Vendor cannot be empty" ∉ dr.2 := by
        apply rowMsg_notMem rfl
        intro e he
        rcases dateResult_shape ((hm "date").isSome) rn today month year
          (fieldOf hm hlen line "date") dr hdr e he with h' | h'
        · exact ⟨_, h', by decide⟩
        · exact ⟨_, h', tailNe_vendor_invDay _⟩
      rw [List.count_append, List.count_append, List.count_append,
        List.count_eq_zero.mpr hI, List.count_eq_zero.mpr hPr, List.count_eq_zero.mpr hD]
      simp

theorem processRow_price_nan (hm : String → Option Nat) (hlen : Nat)
    (today month year : String) (rn : Nat) (line : String)
    (hP : (hm "price").isSome = true)
    (hT : jsTrim (fieldOf hm hlen line "price") ≠ "")
    (hN : parseFloat (fieldOf hm hlen line "price") = JSNum.nan)
    (r : Option CSVRow) (es : List String)
    (h : processRow hm hlen today month year rn line = Except.ok (r, es)) :
    r = none ∧
      es.count (rowMsg rn ("Invalid price \"" ++ fieldOf hm hlen line "price" ++ "\"")) = 1 := by
  cases hdr : dateResult ((hm "date").isSome) rn today month year (fieldOf hm hlen line "date") with
  | error u =>
    cases u
    rw [processRow_err hm hlen today month year rn line hdr] at h
    exact Except.noConfusion h
  | ok dr =>
    rw [processRow_eq hm hlen today month year rn line dr hdr] at h
    have hPr : priceResult (hm "price").isSome rn (fieldOf hm hlen line "price") =
        (JSNum.nan, [rowMsg rn ("Invalid price \"" ++ fieldOf hm hlen line "price" ++ "\"")]) := by
      rw [hP]
      simp only [priceResult, hT, if_false, if_true]
      rw [hN]
    rw [hPr] at h
    split at h
    · rename_i hc
      simp at hc
    · injection h with h'
      injection h' with hA hB
      subst hA; subst hB
      refine ⟨rfl, ?_⟩
      have hI : rowMsg rn ("Invalid price \"" ++ fieldOf hm hlen line "price" ++ "\"") ∉
          itemEmptyErrs (hm "item").isSome rn (fieldOf hm hlen line "item") := by
        apply rowMsg_notMem rfl
        intro e he
        exact ⟨_, itemEmptyErrs_shape _ rn _ e he, (tailNe_item_invPrice _).symm⟩
      have hV : rowMsg rn ("Invalid price \"" ++ fieldOf hm hlen line "price" ++ "\"") ∉
          vendorEmptyErrs (hm "vendor").isSome rn (fieldOf hm hlen line "vendor") := by
        apply rowMsg_notMem rfl
        intro e he
        exact ⟨_, vendorEmptyErrs_shape _ rn _ e he, (tailNe_vendor_invPrice _).symm⟩
      have hD : rowMsg rn ("Invalid price \"" ++ fieldOf hm hlen line "price" ++ "\"") ∉ dr.2 := by
        apply rowMsg_notMem rfl
        intro e he
        rcases dateResult_shape ((hm "date").isSome) rn today month year
          (fieldOf hm hlen line "date") dr hdr e he with h' | h'
        · exact ⟨_, h', (tailNe_dateEmpty_invPrice _).symm⟩
        · exact ⟨_, h', tailNe_invPrice_invDay _ _⟩
      rw [List.count_append, List.count_append, List.count_append,
        List.count_eq_zero.mpr hI, List.count_eq_zero.mpr hV, List.count_eq_zero.mpr hD]
      simp

theorem processRow_price_valid (hm : String → Option Nat) (hlen : Nat)
    (today month year : String) (rn : Nat) (line : String)
    (hT : jsTrim (fieldOf hm hlen line "price") ≠ "")
    (hN : parseFloat (fieldOf hm hlen line "price") ≠ JSNum.nan)
    (r : Option CSVRow) (es : List String)
    (h : processRow hm hlen today month year rn line = Except.ok (r, es)) :
    rowMsg rn ("Invalid price \"" ++ fieldOf hm hlen line "price" ++ "\"") ∉ es ∧
      rowMsg rn "Price cannot be empty" ∉ es := by
  cases hdr : dateResult ((hm "date").isSome) rn today month year (fieldOf hm hlen line "date") with
  | error u =>
    cases u
    rw [processRow_err hm hlen today month year rn line hdr] at h
    exact Except.noConfusion h
  | ok dr =>
    rw [processRow_eq hm hlen today month year rn line dr hdr] at h
    have hPr : (priceResult (hm "price").isSome rn (fieldOf hm hlen line "price")).2 = [] := by
      cases hps : (hm "price").isSome with
      | false => simp [priceResult]
      | true =>
        cases hpf : parseFloat (fieldOf hm hlen line "price") with
        | nan => exact absurd hpf hN
        | inf b => simp [priceResult, hT, hpf]
        | val q => simp [priceResult, hT, hpf]
    rw [hPr] at h
    split at h
    · injection h with h'
      injection h' with hA hB
      subst hB
      simp
    · injection h with h'
      injection h' with hA hB
      subst hB
      constructor
      · apply rowMsg_notMem rfl
        intro e he
        simp only [List.append_assoc, List.append_nil, List.nil_append, List.mem_append] at he
        rcases he with he | he | he
        · exact ⟨_, itemEmptyErrs_shape _ rn _ e he, (tailNe_item_invPrice _).symm⟩
        · exact ⟨_, vendorEmptyErrs_shape _ rn _ e he, (tailNe_vendor_invPrice _).symm⟩
        · rcases dateResult_shape ((hm "date").isSome) rn today month year
            (fieldOf hm hlen line "date") dr hdr e he with h' | h'
          · exact ⟨_, h', (tailNe_dateEmpty_invPrice _).symm⟩
          · exact ⟨_, h', tailNe_invPrice_invDay _ _⟩
      · apply rowMsg_notMem rfl
        intro e he
        simp only [List.append_assoc, List.append_nil, List.nil_append, List.mem_append] at he
        rcases he with he | he | he
        · exact ⟨_, itemEmptyErrs_shape _ rn _ e he, by decide⟩
        · exact ⟨_, vendorEmptyErrs_shape _ rn _ e he, by decide⟩
        · rcases dateResult_shape ((hm "date").isSome) rn today month year
            (fieldOf hm hlen line "date") dr hdr e he with h' | h'
          · exact ⟨_, h', by decide⟩
          · exact ⟨_, h', tailNe_priceEmpty_invDay _⟩

/- ### Loop-level lemmas -/

theorem lineEmits_eq_isSome (hm : String → Option Nat) (hlen : Nat)
    (today month year : String) (rn : Nat) (line : String) (r : Option CSVRow) (es : List String)
    (h : processRow hm hlen today month year rn line = Except.ok (r, es)) :
    lineEmits hm hlen today month year rn line = r.isSome := by
  unfold lineEmits
  rw [h]
  cases r <;> rfl

theorem parseRows_ok (hm : String → Option Nat) (hlen : Nat) (today month year : String)
    (mm yy : Int) (hM : parseIntJS month = some mm) (hY : parseIntJS year = some yy) :
    ∀ (ls : List String) (k : Nat), ∃ out, parseRows hm hlen today month year k ls = Except.ok out := by
  intro ls
  induction ls with
  | nil => intro k; exact ⟨_, rfl⟩
  | cons l ls ih =>
    intro k
    obtain ⟨⟨r, es⟩, hpr⟩ := processRow_ok hm hlen today month year (k + 1) l mm yy hM hY
    obtain ⟨⟨rs, ess⟩, hrec⟩ := ih (k + 1)
    cases r with
    | none =>
      exact ⟨(rs, es ++ ess), by
        show parseRows hm hlen today month year k (l :: ls) = _
        unfold parseRows
        simp only [hpr, hrec]⟩
    | some row =>
      exact ⟨(row :: rs, es ++ ess), by
        show parseRows hm hlen today month year k (l :: ls) = _
        unfold parseRows
        simp only [hpr, hrec]⟩

theorem parseRows_shape (hm : String → Option Nat) (hlen : Nat) (today month year : String) :
    ∀ (ls : List String) (k : Nat) (rows : List CSVRow) (errs : List String),
      parseRows hm hlen today month year k ls = Except.ok (rows, errs) →
      ∀ e ∈ errs, ∃ j tail, j < ls.length ∧ e = rowMsg (k + j + 1) tail := by
  intro ls
  induction ls with
  | nil =>
    intro k rows errs h e he
    unfold parseRows at h
    injection h with h'
    injection h' with hA hB
    subst hB
    simp at he
  | cons l ls ih =>
    intro k rows errs h e he
    unfold parseRows at h
    cases hpr : processRow hm hlen today month year (k + 1) l with
    | error u => rw [hpr] at h; exact Except.noConfusion h
    | ok out =>
      obtain ⟨r, es⟩ := out
      rw [hpr] at h
      cases hrec : parseRows hm hlen today month year (k + 1) ls with
      | error u => rw [hrec] at h; exact Except.noConfusion h
      | ok out2 =>
        obtain ⟨rs, ess⟩ := out2
        rw [hrec] at h
        injection h with h'
        injection h' with hA hB
        subst hB
        rcases List.mem_append.mp he with he | he
        · obtain ⟨tail, ht⟩ :=
            processRow_shape hm hlen today month year (k + 1) l r es hpr e he
          exact ⟨0, tail, by simp, by simpa using ht⟩
        · obtain ⟨j, tail, hj, ht⟩ := ih (k + 1) rs ess hrec e he
          exact ⟨j + 1, tail, by simpa using Nat.succ_lt_succ hj, by
            rw [ht]; congr 1; omega⟩

theorem parseRows_length (hm : String → Option Nat) (hlen : Nat) (today month year : String) :
    ∀ (ls : List String) (k : Nat) (rows : List CSVRow) (errs : List String),
      parseRows hm hlen today month year k ls = Except.ok (rows, errs) →
      rows.length =
        (ls.enumFrom k).countP (fun p => lineEmits hm hlen today month year (p.1 + 1) p.2) := by
  intro ls
  induction ls with
  | nil =>
    intro k rows errs h
    unfold parseRows at h
    injection h with h'
    injection h' with hA hB
    subst hA
    simp [List.enumFrom]
  | cons l ls ih =>
    intro k rows errs h
    unfold parseRows at h
    cases hpr : processRow hm hlen today month year (k + 1) l with
    | error u => rw [hpr] at h; exact Except.noConfusion h
    | ok out =>
      obtain ⟨r, es⟩ := out
      rw [hpr] at h
      cases hrec : parseRows hm hlen today month year (k + 1) ls with
      | error u => rw [hrec] at h; exact Except.noConfusion h
      | ok out2 =>
        obtain ⟨rs, ess⟩ := out2
        rw [hrec] at h
        injection h with h'
        injection h' with hA hB
        subst hA
        have hIH := ih (k + 1) rs ess hrec
        have hemit := lineEmits_eq_isSome hm hlen today month year (k + 1) l r es hpr
        rw [List.enumFrom_cons, List.countP_cons]
        simp only []
        cases r with
        | none =>
          simp only [Option.isSome_none] at hemit
          rw [hemit]
          simpa using hIH
        | some row =>
          simp only [Option.isSome_some] at hemit
          rw [hemit]
          simp only [List.length_cons]
          rw [hIH]
          simp

theorem notMem_of_rowNums {rn : Nat} {t : String} (l : List String)
    (hshape : ∀ e ∈ l, ∃ rn' u, e = rowMsg rn' u ∧ rn' ≠ rn) : rowMsg rn t ∉ l := by
  intro hmem
  obtain ⟨rn', u, hu, hne⟩ := hshape _ hmem
  exact hne (rowMsg_inj hu.symm).1

theorem parseRows_count (hm : String → Option Nat) (hlen : Nat) (today month year : String) :
    ∀ (ls : List String) (k i : Nat) (line : String) (rt : Option CSVRow) (est : List String)
      (tail : String) (rows : List CSVRow) (errs : List String),
      ls.get? i = some line →
      processRow hm hlen today month year (k + i + 1) line = Except.ok (rt, est) →
      parseRows hm hlen today month year k ls = Except.ok (rows, errs) →
      errs.count (rowMsg (k + i + 1) tail) = est.count (rowMsg (k + i + 1) tail) := by
  intro ls
  induction ls with
  | nil =>
    intro k i line rt est tail rows errs hget
    simp at hget
  | cons l ls ih =>
    intro k i line rt est tail rows errs hget hpt h
    unfold parseRows at h
    cases hpr : processRow hm hlen today month year (k + 1) l with
    | error u => rw [hpr] at h; exact Except.noConfusion h
    | ok out =>
      obtain ⟨r, es⟩ := out
      rw [hpr] at h
      cases hrec : parseRows hm hlen today month year (k + 1) ls with
      | error u => rw [hrec] at h; exact Except.noConfusion h
      | ok out2 =>
        obtain ⟨rs, ess⟩ := out2
        rw [hrec] at h
        injection h with h'
        injection h' with hA hB
        subst hB
        rw [List.count_append]
        cases i with
        | zero =>
          have hl : l = line := by simpa using hget
          subst hl
          have : (k + 0 + 1) = k + 1 := by omega
          rw [this] at hpt
          rw [hpt] at hpr
          injection hpr with h2
          injection h2 with h2A h2B
          subst h2B
          have hzero : rowMsg (k + 0 + 1) tail ∉ ess := by
            apply notMem_of_rowNums
            intro e he
            obtain ⟨j, tail', hj, ht⟩ :=
              parseRows_shape hm hlen today month year ls (k + 1) rs ess hrec e he
            exact ⟨k + 1 + j + 1, tail', ht, by omega⟩
          rw [List.count_eq_zero.mpr hzero]
          have : (k + 0 + 1) = k + 1 := by omega
          rw [this]
          omega
        | succ i' =>
          have hget' : ls.get? i' = some line := by simpa using hget
          have hes : rowMsg (k + (i' + 1) + 1) tail ∉ es := by
            apply notMem_of_rowNums
            intro e he
            obtain ⟨tail', ht⟩ :=
              processRow_shape hm hlen today month year (k + 1) l r es hpr e he
            exact ⟨k + 1, tail', ht, by omega⟩
          rw [List.count_eq_zero.mpr hes]
          have harg : k + (i' + 1) + 1 = (k + 1) + i' + 1 := by omega
          rw [harg]
          have hpt' : processRow hm hlen today month year ((k + 1) + i' + 1) line =
              Except.ok (rt, est) := by
            rw [← harg]; exact hpt
          have := ih (k + 1) i' line rt est tail rs ess hget' hpt' hrec
          omega

/-- `parseCSV` on a structurally accepted input reduces to the data-row
loop. -/
theorem parseCSV_eq_parseRows (today content month year headerLine : String)
    (dataLines : List String)
    (hLines : jsSplit '\n' (jsTrim content) = headerLine :: dataLines)
    (hNE : dataLines ≠ [])
    (hrec : anyRecognized (headerOf headerLine) = true) :
    parseCSV today content month year =
      parseRows (headerMapFun (headerOf headerLine)) (headerOf headerLine).length
        today month year 1 dataLines := by
  have hpos : 0 < dataLines.length := List.length_pos.mpr hNE
  unfold parseCSV
  rw [hLines]
  have hlen2 : ¬((headerLine :: dataLines).length < 2) := by
    simp only [List.length_cons]
    omega
  rw [if_neg hlen2]
  have hgetD : (headerLine :: dataLines).getD 0 "" = headerLine := rfl
  rw [hgetD]
  have hhdr : (jsSplit '\t' headerLine).map jsTrim = headerOf headerLine := rfl
  rw [hhdr]
  simp only [hrec]
  simp

/- ### Import-driver lemmas -/

theorem runImport_all_ok (submit : Nat → StoreResult) (uid : String) :
    ∀ (rows : List CSVRow) (k : Nat), (∀ j, j < rows.length → submit (k + j) = StoreResult.ok) →
      (runImport submit uid k rows).1 = rows.length ∧ (runImport submit uid k rows).2.1 = 0 := by
  intro rows
  induction rows with
  | nil => intro k _; exact ⟨rfl, rfl⟩
  | cons row rest ih =>
    intro k hall
    have h0 : submit k = StoreResult.ok := by
      have := hall 0 (by simp)
      simpa using this
    have hrest := ih (k + 1) (fun j hj => by
      have := hall (j + 1) (by simpa using Nat.succ_lt_succ hj)
      rw [show k + (j + 1) = k + 1 + j by omega] at this
      exact this)
    unfold runImport
    rw [h0]
    simp only [List.length_cons]
    exact ⟨by rw [hrest.1], hrest.2⟩

theorem runImport_err_pos (submit : Nat → StoreResult) (uid : String) :
    ∀ (rows : List CSVRow) (k j : Nat) (e : StoreErr), j < rows.length →
      submit (k + j) = StoreResult.err e → 0 < (runImport submit uid k rows).2.1 := by
  intro rows
  induction rows with
  | nil => intro k j e hj; simp at hj
  | cons row rest ih =>
    intro k j e hj herr
    unfold runImport
    cases j with
    | zero =>
      simp only [Nat.add_zero] at herr
      rw [herr]
      simp
    | succ j' =>
      have hj' : j' < rest.length := by simpa using Nat.lt_of_succ_lt_succ hj
      have herr' : submit (k + 1 + j') = StoreResult.err e := by
        rw [show k + 1 + j' = k + (j' + 1) by omega]
        exact herr
      have := ih (k + 1) j' e hj' herr'
      cases hs : submit k <;> simp only [] <;> omega

/-- Projection selecting the attach-category operations of row `n`. -/
def attachProj (n : Nat) : ApiOp → Option String
  | ApiOp.attachCategory j s => if j = n then some s else none
  | _ => none

theorem runImport_ops_ge (submit : Nat → StoreResult) (uid : String) :
    ∀ (rows : List CSVRow) (k : Nat) (op : ApiOp), op ∈ (runImport submit uid k rows).2.2.2 →
      (match op with
       | ApiOp.createExpense j _ => k ≤ j
       | ApiOp.attachCategory j _ => k ≤ j
       | ApiOp.listExpenses => False) := by
  intro rows
  induction rows with
  | nil => intro k op hop; simp [runImport] at hop
  | cons row rest ih =>
    intro k op hop
    unfold runImport at hop
    cases hs : submit k <;> rw [hs] at hop
    · simp only [List.cons_append, List.mem_cons, List.mem_append] at hop
      rcases hop with hop | hop | hop
      · subst hop; simp
      · unfold attachOpsForCreate at hop
        obtain ⟨s, _, hs'⟩ := List.mem_map.mp hop
        subst hs'
        simp
      · have := ih (k + 1) op hop
        cases op with
        | createExpense j p => simp only [] at this ⊢; omega
        | attachCategory j s => simp only [] at this ⊢; omega
        | listExpenses => exact this
    · simp only [List.mem_cons] at hop
      rcases hop with hop | hop
      · subst hop; simp
      · have := ih (k + 1) op hop
        cases op with
        | createExpense j p => simp only [] at this ⊢; omega
        | attachCategory j s => simp only [] at this ⊢; omega
        | listExpenses => exact this

theorem runImport_create_mem (submit : Nat → StoreResult) (uid : String) :
    ∀ (rows : List CSVRow) (k i : Nat) (row : CSVRow), rows.get? i = some row →
      ApiOp.createExpense (k + i) (mkPayload uid row) ∈ (runImport submit uid k rows).2.2.2 := by
  intro rows
  induction rows with
  | nil => intro k i row hget; simp at hget
  | cons r rest ih =>
    intro k i row hget
    unfold runImport
    cases i with
    | zero =>
      have : r = row := by simpa using hget
      subst this
      cases hs : submit k <;> simp
    | succ i' =>
      have hget' : rest.get? i' = some row := by simpa using hget
      have := ih (k + 1) i' row hget'
      rw [show k + (i' + 1) = k + 1 + i' by omega]
      cases hs : submit k <;> simp [this]

theorem runImport_attaches (submit : Nat → StoreResult) (uid : String) :
    ∀ (rows : List CSVRow) (k i : Nat) (row : CSVRow), rows.get? i = some row →
      submit (k + i) = StoreResult.ok →
      ((runImport submit uid k rows).2.2.2.filterMap (attachProj (k + i))) =
        splitCategories row.categories := by
  intro rows
  induction rows with
  | nil => intro k i row hget; simp at hget
  | cons r rest ih =>
    intro k i row hget hok
    unfold runImport
    cases i with
    | zero =>
      have : r = row := by simpa using hget
      subst this
      simp only [Nat.add_zero] at hok ⊢
      rw [hok]
      simp only [List.cons_append, List.filterMap_cons]
      have h1 : attachProj k (ApiOp.createExpense k (mkPayload uid r)) = none := rfl
      rw [h1]
      rw [List.filterMap_append]
      have h2 : (attachOpsForCreate k (mkPayload uid r)).filterMap (attachProj k) =
          splitCategories r.categories := by
        unfold attachOpsForCreate
        rw [List.filterMap_map]
        have hcomp : ((attachProj k) ∘ (ApiOp.attachCategory k)) = fun s => some s := by
          funext s
          simp [attachProj]
        rw [hcomp]
        simp [mkPayload]
      have h3 : (runImport submit uid (k + 1) rest).2.2.2.filterMap (attachProj k) = [] := by
        rw [List.filterMap_eq_nil]
        intro op hop
        have := runImport_ops_ge submit uid rest (k + 1) op hop
        cases op with
        | createExpense j p => rfl
        | attachCategory j s =>
          simp only [] at this
          simp only [attachProj]
          rw [if_neg (by omega)]
        | listExpenses => exact absurd this (by simp)
      rw [h2, h3]
      simp
    | succ i' =>
      have hget' : rest.get? i' = some row := by simpa using hget
      have hok' : submit (k + 1 + i') = StoreResult.ok := by
        rw [show k + 1 + i' = k + (i' + 1) by omega]
        exact hok
      have hIH := ih (k + 1) i' row hget' hok'
      have harg : k + 1 + i' = k + (i' + 1) := by omega
      rw [harg] at hIH
      cases hs : submit k with
      | ok =>
        simp only [List.cons_append, List.filterMap_cons, List.filterMap_append]
        have h1 : attachProj (k + (i' + 1)) (ApiOp.createExpense k (mkPayload uid r)) = none := rfl
        rw [h1]
        have h2 : (attachOpsForCreate k (mkPayload uid r)).filterMap (attachProj (k + (i' + 1))) =
            [] := by
          rw [List.filterMap_eq_nil]
          intro op hop
          unfold attachOpsForCreate at hop
          obtain ⟨s, _, hs'⟩ := List.mem_map.mp hop
          subst hs'
          simp only [attachProj]
          rw [if_neg (by omega)]
        rw [h2, hIH]
        simp
      | err e =>
        simp only [List.filterMap_cons]
        have h1 : attachProj (k + (i' + 1)) (ApiOp.createExpense k (mkPayload uid r)) = none := rfl
        rw [h1, hIH]

instance {e a : Type} [DecidableEq e] [DecidableEq a] : DecidableEq (Except e a) := fun x y =>
  match x, y with
  | Except.error u, Except.error v =>
    if h : u = v then Decidable.isTrue (by rw [h])
    else Decidable.isFalse (by intro hc; injection hc; contradiction)
  | Except.ok u, Except.ok v =>
    if h : u = v then Decidable.isTrue (by rw [h])
    else Decidable.isFalse (by intro hc; injection hc; contradiction)
  | Except.error _, Except.ok _ => Decidable.isFalse (fun hc => Except.noConfusion hc)
  | Except.ok _, Except.error _ => Decidable.isFalse (fun hc => Except.noConfusion hc)

/- ### C7 helpers: whitespace-only strings have no commas and trim to empty -/

theorem asString_data (s : String) : (s.data).asString = s := by
  cases s
  rfl

theorem jsTrim_empty_all_ws {s : String} (h : jsTrim s = "") : ∀ c ∈ s.data, isJsWs c = true := by
  have hchars : trimChars s.data = [] := by
    have : (trimChars s.data).asString = ([] : List Char).asString := h
    exact asString_inj this
  unfold trimChars at hchars
  have h1 : (s.data.dropWhile isJsWs).reverse.dropWhile isJsWs = [] :=
    List.reverse_eq_nil_iff.mp hchars
  have h2 : ∀ c ∈ (s.data.dropWhile isJsWs).reverse, isJsWs c = true :=
    List.dropWhile_eq_nil_iff.mp h1
  have h3 : ∀ c ∈ s.data.dropWhile isJsWs, isJsWs c = true := by
    intro c hc
    exact h2 c (List.mem_reverse.mpr hc)
  intro c hc
  rw [← List.takeWhile_append_dropWhile (p := isJsWs) (l := s.data)] at hc
  rcases List.mem_append.mp hc with hc | hc
  · exact List.mem_takeWhile_imp hc
  · exact h3 c hc

theorem splitChars_no_sep {sep : Char} : ∀ {cs : List Char}, sep ∉ cs →
    splitChars sep cs = [cs] := by
  intro cs
  induction cs with
  | nil => intro _; rfl
  | cons c cs ih =>
    intro hns
    have hc : c ≠ sep := fun h => hns (h ▸ List.mem_cons_self c cs)
    have hcs : sep ∉ cs := fun h => hns (List.mem_cons_of_mem c h)
    unfold splitChars
    rw [if_neg hc, ih hcs]

theorem strPos_iff (c : String) : 0 < c.length ↔ c ≠ "" := by
  cases c with
  | mk data =>
    cases data with
    | nil => simp [String.length]
    | cons x xs =>
      simp only [String.length]
      constructor
      · intro _ h
        exact List.noConfusion (congrArg String.data h)
      · intro _
        simp

/-- C10: an input with fewer than two lines after trimming yields zero rows
and exactly the structural too-short error, before any header recognition is
attempted (the header content and the month/year are irrelevant). -/
theorem c10_too_short (today content month year : String)
    (h : (jsSplit '\n' (jsTrim content)).length < 2) :
    parseCSV today content month year = Except.ok ([], [tooShortMsg]) := by
  unfold parseCSV
  rw [if_pos h]

/-- Witness for `c10_too_short`: a single header-only line whose sole cell is
the recognized column `item` still fails the line-count check. -/
theorem c10_too_short_witness :
    (jsSplit '\n' (jsTrim "item")).length < 2 ∧
      parseCSV "2020-05-05" "item" "0" "2024" = Except.ok ([], [tooShortMsg]) :=
  ⟨by decide, c10_too_short "2020-05-05" "item" "0" "2024" (by decide)⟩

/-- C6: with import context month `"2"` (March, 0-indexed) and year `"2024"`,
a row with day-of-month `15` resolves to the calendar date `2024-03-15` in the
emitted row's `date_purchased` field. -/
theorem c6_date_resolution :
    parseCSV "2020-05-05" "item\tvendor\tdate\na\tb\t15" "2" "2024" =
      Except.ok ([⟨"a", "b", JSNum.val 0, "2024-03-15", "", "", ""⟩], []) ∧
    jsDateToISO 2024 2 15 = "2024-03-15" := by
  constructor
  · decide
  · decide

/-- C7: the category splitter splits on commas, trims each token, and drops
tokens that are empty after trimming; `"Food, Groceries ,  Fun"` yields exactly
`["Food", "Groceries", "Fun"]`, and empty or whitespace-only input yields the
empty list. -/
theorem c7_split_categories :
    splitCategories "Food, Groceries ,  Fun" = ["Food", "Groceries", "Fun"] ∧
    splitCategories "" = [] ∧
    splitCategories "   " = [] ∧
    ∀ s, splitCategories s = ((jsSplit ',' s).map jsTrim).filter (fun c => c ≠ "") := by
  refine ⟨by decide, by decide, by decide, ?_⟩
  intro s
  unfold splitCategories
  split
  · apply List.filter_congr
    intro c _
    rcases Nat.eq_zero_or_pos c.length with h0 | hpos
    · have : c = "" := by
        by_contra hne
        have := (strPos_iff c).mpr hne
        omega
      subst this
      decide
    · have hne := (strPos_iff c).mp hpos
      simp [hpos, hne]
  · rename_i hcond
    rw [not_and_or] at hcond
    rcases hcond with hcond | hcond
    · rw [not_not] at hcond
      subst hcond
      decide
    · rw [not_not] at hcond
      have hws := jsTrim_empty_all_ws hcond
      have hns : ',' ∉ s.data := by
        intro hmem
        have := hws ',' hmem
        exact absurd this (by decide)
      have hsplit : jsSplit ',' s = [s] := by
        unfold jsSplit
        rw [splitChars_no_sep hns, List.map_singleton, asString_data]
      rw [hsplit]
      simp [hcond]

/-- C2: if at least one header cell matches a recognized synonym
(case-insensitively), parsing proceeds to the data-row loop and neither
structural error is ever emitted; if no header cell is recognized, parsing
fails with exactly one structural error listing the attempted headers and the
supported columns, and no rows are emitted. -/
theorem c2_header_recognition (today content month year headerLine : String)
    (dataLines : List String) (mm yy : Int)
    (hM : parseIntJS month = some mm) (hY : parseIntJS year = some yy)
    (hLines : jsSplit '\n' (jsTrim content) = headerLine :: dataLines)
    (hNE : dataLines ≠ []) :
    (anyRecognized (headerOf headerLine) = true →
      ∃ rows errs, parseCSV today content month year = Except.ok (rows, errs) ∧
        tooShortMsg ∉ errs ∧ noColsMsg (headerOf headerLine) ∉ errs ∧
        parseCSV today content month year =
          parseRows (headerMapFun (headerOf headerLine)) (headerOf headerLine).length
            today month year 1 dataLines) ∧
    (anyRecognized (headerOf headerLine) = false →
      parseCSV today content month year = Except.ok ([], [noColsMsg (headerOf headerLine)])) := by
  constructor
  · intro hrec
    have hbridge := parseCSV_eq_parseRows today content month year headerLine dataLines
      hLines hNE hrec
    obtain ⟨⟨rows, errs⟩, hok⟩ := parseRows_ok (headerMapFun (headerOf headerLine))
      (headerOf headerLine).length today month year mm yy hM hY dataLines 1
    refine ⟨rows, errs, by rw [hbridge]; exact hok, ?_, ?_, hbridge⟩
    · intro hmem
      obtain ⟨j, tail, _, ht⟩ := parseRows_shape (headerMapFun (headerOf headerLine))
        (headerOf headerLine).length today month year dataLines 1 rows errs hok tooShortMsg hmem
      exact rowMsg_ne_tooShort (1 + j + 1) tail ht.symm
    · intro hmem
      obtain ⟨j, tail, _, ht⟩ := parseRows_shape (headerMapFun (headerOf headerLine))
        (headerOf headerLine).length today month year dataLines 1 rows errs hok
        (noColsMsg (headerOf headerLine)) hmem
      exact rowMsg_ne_noCols (1 + j + 1) tail (headerOf headerLine) ht.symm
  · intro hrec
    have hpos : 0 < dataLines.length := List.length_pos.mpr hNE
    unfold parseCSV
    rw [hLines]
    have hlen2 : ¬((headerLine :: dataLines).length < 2) := by
      simp only [List.length_cons]
      omega
    rw [if_neg hlen2]
    have hgetD : (headerLine :: dataLines).getD 0 "" = headerLine := rfl
    rw [hgetD]
    have hhdr : (jsSplit '\t' headerLine).map jsTrim = headerOf headerLine := rfl
    rw [hhdr]
    simp only [hrec]
    simp

/-- Witness for `c2_header_recognition`, applied at a recognized header
(`item` plus an ignored unknown column) and at a fully unrecognized header. -/
theorem c2_header_recognition_witness :
    (∃ rows errs, parseCSV "2020-05-05" "item\tfoo\na\tb" "0" "2024" = Except.ok (rows, errs) ∧
      tooShortMsg ∉ errs ∧ noColsMsg (headerOf "item\tfoo") ∉ errs ∧
      parseCSV "2020-05-05" "item\tfoo\na\tb" "0" "2024" =
        parseRows (headerMapFun (headerOf "item\tfoo")) (headerOf "item\tfoo").length
          "2020-05-05" "0" "2024" 1 ["a\tb"]) ∧
    parseCSV "2020-05-05" "foo\tbar\nx\ty" "0" "2024" =
      Except.ok ([], [noColsMsg (headerOf "foo\tbar")]) :=
  ⟨(c2_header_recognition "2020-05-05" "item\tfoo\na\tb" "0" "2024" "item\tfoo" ["a\tb"]
      0 2024 (by decide) (by decide) (by decide) (by decide)).1 (by decide),
   (c2_header_recognition "2020-05-05" "foo\tbar\nx\ty" "0" "2024" "foo\tbar" ["x\ty"]
      0 2024 (by decide) (by decide) (by decide) (by decide)).2 (by decide)⟩

/-- C3 (counterexample): the input `"item\n\nok"` has two data lines after the
header, but the parser emits only one `ImportRow` draft — the empty line fails
the item validation and is skipped (`continue`), so the draft count does not
equal the data-line count. -/
theorem c3_counterexample :
    ((jsSplit '\n' (jsTrim "item\n\nok")).length - 1 = 2) ∧
    parseCSV "2020-05-05" "item\n\nok" "0" "2024" =
      Except.ok ([⟨"ok", "Unknown Vendor", JSNum.val 0, "2020-05-05", "", "", ""⟩],
        ["Row 2: Item cannot be empty"]) := by
  constructor
  · decide
  · decide

/-- C3 (amended): for a structurally accepted input the parser attempts every
data line in order (padding short rows rather than rejecting them); a line
yields a draft exactly when it has no validation errors, so the number of
emitted drafts equals the number of validation-error-free data lines — not the
number of all data lines. -/
theorem c3_drafts_per_valid_line (today content month year headerLine : String)
    (dataLines : List String) (mm yy : Int)
    (hM : parseIntJS month = some mm) (hY : parseIntJS year = some yy)
    (hLines : jsSplit '\n' (jsTrim content) = headerLine :: dataLines)
    (hNE : dataLines ≠ [])
    (hrec : anyRecognized (headerOf headerLine) = true) :
    ∃ rows errs, parseCSV today content month year = Except.ok (rows, errs) ∧
      rows.length = (dataLines.enumFrom 1).countP
        (fun p => lineEmits (headerMapFun (headerOf headerLine)) (headerOf headerLine).length
          today month year (p.1 + 1) p.2) ∧
      (∀ rn l r es,
        processRow (headerMapFun (headerOf headerLine)) (headerOf headerLine).length
          today month year rn l = Except.ok (r, es) →
        (r.isSome = true ↔ es = [])) := by
  have hbridge := parseCSV_eq_parseRows today content month year headerLine dataLines
    hLines hNE hrec
  obtain ⟨⟨rows, errs⟩, hok⟩ := parseRows_ok (headerMapFun (headerOf headerLine))
    (headerOf headerLine).length today month year mm yy hM hY dataLines 1
  refine ⟨rows, errs, by rw [hbridge]; exact hok, ?_, ?_⟩
  · exact parseRows_length (headerMapFun (headerOf headerLine)) (headerOf headerLine).length
      today month year dataLines 1 rows errs hok
  · intro rn l r es h
    exact processRow_emits_iff (headerMapFun (headerOf headerLine)) (headerOf headerLine).length
      today month year rn l r es h

/-- Witness for `c3_drafts_per_valid_line` at the counterexample input: one of
the two data lines is valid, and the draft count is 1. -/
theorem c3_drafts_per_valid_line_witness :
    ∃ rows errs, parseCSV "2020-05-05" "item\n\nok" "0" "2024" = Except.ok (rows, errs) ∧
      rows.length = ((["", "ok"] : List String).enumFrom 1).countP
        (fun p => lineEmits (headerMapFun (headerOf "item")) (headerOf "item").length
          "2020-05-05" "0" "2024" (p.1 + 1) p.2) ∧
      (∀ rn l r es,
        processRow (headerMapFun (headerOf "item")) (headerOf "item").length
          "2020-05-05" "0" "2024" rn l = Except.ok (r, es) →
        (r.isSome = true ↔ es = [])) :=
  c3_drafts_per_valid_line "2020-05-05" "item\n\nok" "0" "2024" "item" ["", "ok"]
    0 2024 (by decide) (by decide) (by decide) (by decide) (by decide)

/-- C4 (counterexample): a data row whose `item` and `vendor` cells are both
empty appears twice in the accumulated error list (once per empty required
column), not exactly once. -/
theorem c4_counterexample :
    parseCSV "2020-05-05" "item\tvendor\tnotes\n\t\thello" "0" "2024" =
      Except.ok ([], ["Row 2: Item cannot be empty", "Row 2: Vendor cannot be empty"]) ∧
    (["Row 2: Item cannot be empty", "Row 2: Vendor cannot be empty"].countP
      (fun e => ("Row 2:".data).isPrefixOf e.data) = 2) := by
  constructor
  · decide
  · decide

/-- C4 (amended): a data row with a required column (item or vendor) present
but empty after trimming is excluded from the valid output, and for each such
empty required column the accumulated error list contains exactly one entry,
tagged with the row's original 1-based line number (`i + 2` for the `i`-th
data line, the header being line 1); a row with both empty appears once per
column, i.e. twice in total. -/
theorem c4_required_field_errors (today content month year headerLine : String)
    (dataLines : List String) (mm yy : Int) (i : Nat) (line : String)
    (hM : parseIntJS month = some mm) (hY : parseIntJS year = some yy)
    (hLines : jsSplit '\n' (jsTrim content) = headerLine :: dataLines)
    (hrec : anyRecognized (headerOf headerLine) = true)
    (hGet : dataLines.get? i = some line) :
    (∀ j, headerMapFun (headerOf headerLine) "item" = some j →
      jsTrim (fieldOf (headerMapFun (headerOf headerLine)) (headerOf headerLine).length
        line "item") = "" →
      ∃ rows errs, parseCSV today content month year = Except.ok (rows, errs) ∧
        errs.count (rowMsg (i + 2) "Item cannot be empty") = 1 ∧
        lineEmits (headerMapFun (headerOf headerLine)) (headerOf headerLine).length
          today month year (i + 2) line = false) ∧
    (∀ j, headerMapFun (headerOf headerLine) "vendor" = some j →
      jsTrim (fieldOf (headerMapFun (headerOf headerLine)) (headerOf headerLine).length
        line "vendor") = "" →
      ∃ rows errs, parseCSV today content month year = Except.ok (rows, errs) ∧
        errs.count (rowMsg (i + 2) "Vendor cannot be empty") = 1 ∧
        lineEmits (headerMapFun (headerOf headerLine)) (headerOf headerLine).length
          today month year (i + 2) line = false) := by
  have hNE : dataLines ≠ [] := by
    intro hnil
    rw [hnil] at hGet
    simp at hGet
  have hbridge := parseCSV_eq_parseRows today content month year headerLine dataLines
    hLines hNE hrec
  obtain ⟨⟨rows, errs⟩, hok⟩ := parseRows_ok (headerMapFun (headerOf headerLine))
    (headerOf headerLine).length today month year mm yy hM hY dataLines 1
  obtain ⟨⟨rt, est⟩, hpt⟩ := processRow_ok (headerMapFun (headerOf headerLine))
    (headerOf headerLine).length today month year (1 + i + 1) line mm yy hM hY
  have harg : 1 + i + 1 = i + 2 := by omega
  constructor
  · intro j hj hempty
    have hPsome : ((headerMapFun (headerOf headerLine)) "item").isSome = true := by
      rw [hj]; rfl
    have hitem := processRow_item_empty (headerMapFun (headerOf headerLine))
      (headerOf headerLine).length today month year (1 + i + 1) line hPsome hempty rt est hpt
    have hcount := parseRows_count (headerMapFun (headerOf headerLine))
      (headerOf headerLine).length today month year dataLines 1 i line rt est
      "Item cannot be empty" rows errs hGet hpt hok
    refine ⟨rows, errs, by rw [hbridge]; exact hok, ?_, ?_⟩
    · rw [← harg, hcount, hitem.2]
    · have hle := lineEmits_eq_isSome (headerMapFun (headerOf headerLine))
        (headerOf headerLine).length today month year (1 + i + 1) line rt est hpt
      rw [← harg, hle, hitem.1]
      rfl
  · intro j hj hempty
    have hPsome : ((headerMapFun (headerOf headerLine)) "vendor").isSome = true := by
      rw [hj]; rfl
    have hvendor := processRow_vendor_empty (headerMapFun (headerOf headerLine))
      (headerOf headerLine).length today month year (1 + i + 1) line hPsome hempty rt est hpt
    have hcount := parseRows_count (headerMapFun (headerOf headerLine))
      (headerOf headerLine).length today month year dataLines 1 i line rt est
      "Vendor cannot be empty" rows errs hGet hpt hok
    refine ⟨rows, errs, by rw [hbridge]; exact hok, ?_, ?_⟩
    · rw [← harg, hcount, hvendor.2]
    · have hle := lineEmits_eq_isSome (headerMapFun (headerOf headerLine))
        (headerOf headerLine).length today month year (1 + i + 1) line rt est hpt
      rw [← harg, hle, hvendor.1]
      rfl

/-- Witness for `c4_required_field_errors`: the second data line of
`"item\tvendor\nok\tv\n\tv2"` has an empty item cell, so it produces exactly
one item error for line 3 and emits no draft. -/
theorem c4_required_field_errors_witness :
    ∃ rows errs, parseCSV "2020-05-05" "item\tvendor\nok\tv\n\tv2" "0" "2024" =
      Except.ok (rows, errs) ∧
      errs.count (rowMsg (1 + 2) "Item cannot be empty") = 1 ∧
      lineEmits (headerMapFun (headerOf "item\tvendor")) (headerOf "item\tvendor").length
        "2020-05-05" "0" "2024" (1 + 2) "\tv2" = false :=
  (c4_required_field_errors "2020-05-05" "item\tvendor\nok\tv\n\tv2" "0" "2024"
    "item\tvendor" ["ok\tv", "\tv2"] 0 2024 1 "\tv2"
    (by decide) (by decide) (by decide) (by decide) (by decide)).1
    0 (by decide) (by decide)

/-- C5 (counterexample): a data row with price `-5` parses without any
validation error and is included in the valid output with the negative price —
negative values are not treated as validation failures by the parser. -/
theorem c5_counterexample :
    parseCSV "2020-05-05" "item\tvendor\tprice\na\tb\t-5" "0" "2024" =
      Except.ok ([⟨"a", "b", JSNum.val (-5), "2020-05-05", "", "", ""⟩], []) := by
  decide

/-- C5 (amended): when the price column is present and the cell is non-empty
after trimming, a value whose `parseFloat` is NaN is recorded as exactly one
"Invalid price" error for that row and the row is excluded; a value that
parses to any non-NaN number — negative and infinite values included — raises
no price error for that row (`price > 0` is left to the downstream store). -/
theorem c5_price_validation (today content month year headerLine : String)
    (dataLines : List String) (mm yy : Int) (i : Nat) (line : String) (j : Nat)
    (hM : parseIntJS month = some mm) (hY : parseIntJS year = some yy)
    (hLines : jsSplit '\n' (jsTrim content) = headerLine :: dataLines)
    (hrec : anyRecognized (headerOf headerLine) = true)
    (hGet : dataLines.get? i = some line)
    (hj : headerMapFun (headerOf headerLine) "price" = some j)
    (hT : jsTrim (fieldOf (headerMapFun (headerOf headerLine)) (headerOf headerLine).length
      line "price") ≠ "") :
    (parseFloat (fieldOf (headerMapFun (headerOf headerLine)) (headerOf headerLine).length
        line "price") = JSNum.nan →
      ∃ rows errs, parseCSV today content month year = Except.ok (rows, errs) ∧
        errs.count (rowMsg (i + 2) ("Invalid price \"" ++
          fieldOf (headerMapFun (headerOf headerLine)) (headerOf headerLine).length
            line "price" ++ "\"")) = 1 ∧
        lineEmits (headerMapFun (headerOf headerLine)) (headerOf headerLine).length
          today month year (i + 2) line = false) ∧
    (parseFloat (fieldOf (headerMapFun (headerOf headerLine)) (headerOf headerLine).length
        line "price") ≠ JSNum.nan →
      ∃ rows errs, parseCSV today content month year = Except.ok (rows, errs) ∧
        errs.count (rowMsg (i + 2) ("Invalid price \"" ++
          fieldOf (headerMapFun (headerOf headerLine)) (headerOf headerLine).length
            line "price" ++ "\"")) = 0 ∧
        errs.count (rowMsg (i + 2) "Price cannot be empty") = 0) := by
  have hNE : dataLines ≠ [] := by
    intro hnil
    rw [hnil] at hGet
    simp at hGet
  have hbridge := parseCSV_eq_parseRows today content month year headerLine dataLines
    hLines hNE hrec
  obtain ⟨⟨rows, errs⟩, hok⟩ := parseRows_ok (headerMapFun (headerOf headerLine))
    (headerOf headerLine).length today month year mm yy hM hY dataLines 1
  obtain ⟨⟨rt, est⟩, hpt⟩ := processRow_ok (headerMapFun (headerOf headerLine))
    (headerOf headerLine).length today month year (1 + i + 1) line mm yy hM hY
  have harg : 1 + i + 1 = i + 2 := by omega
  have hPsome : ((headerMapFun (headerOf headerLine)) "price").isSome = true := by
    rw [hj]; rfl
  constructor
  · intro hnan
    have hprice := processRow_price_nan (headerMapFun (headerOf headerLine))
      (headerOf headerLine).length today month year (1 + i + 1) line hPsome hT hnan rt est hpt
    have hcount := parseRows_count (headerMapFun (headerOf headerLine))
      (headerOf headerLine).length today month year dataLines 1 i line rt est
      ("Invalid price \"" ++ fieldOf (headerMapFun (headerOf headerLine))
        (headerOf headerLine).length line "price" ++ "\"") rows errs hGet hpt hok
    refine ⟨rows, errs, by rw [hbridge]; exact hok, ?_, ?_⟩
    · rw [← harg, hcount, hprice.2]
    · have hle := lineEmits_eq_isSome (headerMapFun (headerOf headerLine))
        (headerOf headerLine).length today month year (1 + i + 1) line rt est hpt
      rw [← harg, hle, hprice.1]
      rfl
  · intro hvalid
    have hprice := processRow_price_valid (headerMapFun (headerOf headerLine))
      (headerOf headerLine).length today month year (1 + i + 1) line hT hvalid rt est hpt
    have hcount1 := parseRows_count (headerMapFun (headerOf headerLine))
      (headerOf headerLine).length today month year dataLines 1 i line rt est
      ("Invalid price \"" ++ fieldOf (headerMapFun (headerOf headerLine))
        (headerOf headerLine).length line "price" ++ "\"") rows errs hGet hpt hok
    have hcount2 := parseRows_count (headerMapFun (headerOf headerLine))
      (headerOf headerLine).length today month year dataLines 1 i line rt est
      "Price cannot be empty" rows errs hGet hpt hok
    refine ⟨rows, errs, by rw [hbridge]; exact hok, ?_, ?_⟩
    · rw [← harg, hcount1, List.count_eq_zero.mpr hprice.1]
    · rw [← harg, hcount2, List.count_eq_zero.mpr hprice.2]

/-- Witness for `c5_price_validation`: price cell `"abc"` is NaN (one invalid
error, row excluded); in a second application, price cell `"-5"` parses and
raises no price error. -/
theorem c5_price_validation_witness :
    (∃ rows errs, parseCSV "2020-05-05" "item\tvendor\tprice\na\tb\tabc" "0" "2024" =
      Except.ok (rows, errs) ∧
      errs.count (rowMsg (0 + 2) ("Invalid price \"" ++
        fieldOf (headerMapFun (headerOf "item\tvendor\tprice"))
          (headerOf "item\tvendor\tprice").length "a\tb\tabc" "price" ++ "\"")) = 1 ∧
      lineEmits (headerMapFun (headerOf "item\tvendor\tprice"))
        (headerOf "item\tvendor\tprice").length "2020-05-05" "0" "2024" (0 + 2)
        "a\tb\tabc" = false) ∧
    (∃ rows errs, parseCSV "2020-05-05" "item\tvendor\tprice\na\tb\t-5" "0" "2024" =
      Except.ok (rows, errs) ∧
      errs.count (rowMsg (0 + 2) ("Invalid price \"" ++
        fieldOf (headerMapFun (headerOf "item\tvendor\tprice"))
          (headerOf "item\tvendor\tprice").length "a\tb\t-5" "price" ++ "\"")) = 0 ∧
      errs.count (rowMsg (0 + 2) "Price cannot be empty") = 0) :=
  ⟨(c5_price_validation "2020-05-05" "item\tvendor\tprice\na\tb\tabc" "0" "2024"
      "item\tvendor\tprice" ["a\tb\tabc"] 0 2024 0 "a\tb\tabc" 2
      (by decide) (by decide) (by decide) (by decide) (by decide) (by decide) (by decide)).1
      (by decide),
   (c5_price_validation "2020-05-05" "item\tvendor\tprice\na\tb\t-5" "0" "2024"
      "item\tvendor\tprice" ["a\tb\t-5"] 0 2024 0 "a\tb\t-5" 2
      (by decide) (by decide) (by decide) (by decide) (by decide) (by decide) (by decide)).2
      (by decide)⟩

theorem countP_attachOps (i : Nat) (p : ExpenseCreate) :
    (attachOpsForCreate i p).countP (fun op => match op with
      | ApiOp.createExpense _ _ => true | _ => false) = 0 := by
  unfold attachOpsForCreate
  rw [List.countP_map]
  apply List.countP_eq_zero.mpr
  intro s _
  simp [Function.comp]

theorem runImport_createCount (submit : Nat → StoreResult) (uid : String) :
    ∀ (rows : List CSVRow) (k : Nat),
      ((runImport submit uid k rows).2.2.2).countP (fun op => match op with
        | ApiOp.createExpense _ _ => true | _ => false) = rows.length := by
  intro rows
  induction rows with
  | nil => intro k; rfl
  | cons row rest ih =>
    intro k
    unfold runImport
    cases hs : submit k with
    | ok =>
      simp only [List.cons_append, List.countP_cons, List.countP_append, countP_attachOps,
        ih (k + 1), List.length_cons]
      simp
    | err e =>
      simp only [List.countP_cons, ih (k + 1), List.length_cons]
      simp

/-- C1: in a run of 5 parsed rows where exactly row 3's submission fails, the
outcome reports 4 succeeded and 1 failed, the error list is exactly one entry
referencing row 3, the driver still attempts all 5 create operations, and the
list-expenses refresh is the last requested operation. -/
theorem c1_partial_failure_run (submit : Nat → StoreResult) (uid nowMonth nowYear : String)
    (st : UIState) (r0 r1 r2 r3 r4 : CSVRow) (e : StoreErr)
    (hrows : st.csvImportData.parsedData = [r0, r1, r2, r3, r4])
    (herr : submit 2 = StoreResult.err e)
    (hok : ∀ i, i ≠ 2 → submit i = StoreResult.ok) :
    ∃ st' oc, handleImportExpenses submit true uid nowMonth nowYear st = (st', some oc) ∧
      oc.succeeded = 4 ∧ oc.failed = 1 ∧
      oc.errors = ["Row 3 (" ++ r2.item ++ "): " ++ classifyStoreErr e] ∧
      oc.trace.countP (fun op => match op with
        | ApiOp.createExpense _ _ => true | _ => false) = 5 ∧
      oc.trace.getLast? = some ApiOp.listExpenses := by
  have h0 := hok 0 (by decide)
  have h1 := hok 1 (by decide)
  have h3 := hok 3 (by decide)
  have h4 := hok 4 (by decide)
  have hmsg : importErrMsg 2 r2 e = "Row 3 (" ++ r2.item ++ "): " ++ classifyStoreErr e := by
    unfold importErrMsg
    have hx : ("Row " ++ jsNatRepr (2 + 1) : String) = "Row 3" := by decide
    rw [hx]
    have hy : ("Row 3" ++ " (" : String) = "Row 3 (" := by decide
    rw [hy]
  have hc1 : (runImport submit uid 0 [r0, r1, r2, r3, r4]).1 = 4 := by
    simp [runImport, h0, h1, herr, h3, h4]
  have hc2 : (runImport submit uid 0 [r0, r1, r2, r3, r4]).2.1 = 1 := by
    simp [runImport, h0, h1, herr, h3, h4]
  have hc3 : (runImport submit uid 0 [r0, r1, r2, r3, r4]).2.2.1 = [importErrMsg 2 r2 e] := by
    simp [runImport, h0, h1, herr, h3, h4]
  have hcount := runImport_createCount submit uid [r0, r1, r2, r3, r4] 0
  unfold handleImportExpenses
  simp only [hrows]
  rw [if_neg (by simp)]
  rw [if_neg (by simp)]
  simp only [hc2]
  rw [if_pos (by omega)]
  refine ⟨_, _, rfl, hc1, rfl, by rw [hc3, hmsg], ?_, ?_⟩
  · simp only [List.countP_append, hcount]
    rfl
  · exact List.getLast?_concat _

/-- Witness for `c1_partial_failure_run`: five identical concrete rows where
only submission 2 (row 3) is rejected with a 500 status. -/
theorem c1_partial_failure_run_witness :
    ∃ st' oc, handleImportExpenses
      (fun i => if i = 2 then StoreResult.err (StoreErr.httpStatus 500 none) else StoreResult.ok)
      true "u1" "4" "2025"
      ⟨true, ⟨"csv", "2", "2024",
        [⟨"a", "v", JSNum.val 0, "2024-03-01", "", "", ""⟩,
         ⟨"b", "v", JSNum.val 0, "2024-03-01", "", "", ""⟩,
         ⟨"c", "v", JSNum.val 0, "2024-03-01", "", "", ""⟩,
         ⟨"d", "v", JSNum.val 0, "2024-03-01", "", "", ""⟩,
         ⟨"e", "v", JSNum.val 0, "2024-03-01", "", "", ""⟩], []⟩, none⟩ = (st', some oc) ∧
      oc.succeeded = 4 ∧ oc.failed = 1 ∧
      oc.errors = ["Row 3 (" ++ ("c" : String) ++ "): " ++
        classifyStoreErr (StoreErr.httpStatus 500 none)] ∧
      oc.trace.countP (fun op => match op with
        | ApiOp.createExpense _ _ => true | _ => false) = 5 ∧
      oc.trace.getLast? = some ApiOp.listExpenses :=
  c1_partial_failure_run
    (fun i => if i = 2 then StoreResult.err (StoreErr.httpStatus 500 none) else StoreResult.ok)
    "u1" "4" "2025"
    ⟨true, ⟨"csv", "2", "2024",
      [⟨"a", "v", JSNum.val 0, "2024-03-01", "", "", ""⟩,
       ⟨"b", "v", JSNum.val 0, "2024-03-01", "", "", ""⟩,
       ⟨"c", "v", JSNum.val 0, "2024-03-01", "", "", ""⟩,
       ⟨"d", "v", JSNum.val 0, "2024-03-01", "", "", ""⟩,
       ⟨"e", "v", JSNum.val 0, "2024-03-01", "", "", ""⟩], []⟩, none⟩
    ⟨"a", "v", JSNum.val 0, "2024-03-01", "", "", ""⟩
    ⟨"b", "v", JSNum.val 0, "2024-03-01", "", "", ""⟩
    ⟨"c", "v", JSNum.val 0, "2024-03-01", "", "", ""⟩
    ⟨"d", "v", JSNum.val 0, "2024-03-01", "", "", ""⟩
    ⟨"e", "v", JSNum.val 0, "2024-03-01", "", "", ""⟩
    (StoreErr.httpStatus 500 none)
    rfl rfl (fun i hi => by simp [hi])

/-- C8: for every row the driver constructs the creation payload (whose
`new_categories` are exactly the categories parsed from the row's field) and
invokes the create-expense operation; when the submission succeeds, the
attach-category operations requested on behalf of that row — per the
spec-modelled backend (`attachOpsForCreate`) — are exactly one per parsed
category name, in order. -/
theorem c8_attach_per_category (submit : Nat → StoreResult) (uid : String)
    (rows : List CSVRow) (i : Nat) (row : CSVRow) (hget : rows.get? i = some row) :
    ApiOp.createExpense i (mkPayload uid row) ∈ (runImport submit uid 0 rows).2.2.2 ∧
    (mkPayload uid row).new_categories = splitCategories row.categories ∧
    (submit i = StoreResult.ok →
      ((runImport submit uid 0 rows).2.2.2.filterMap (attachProj i)) =
        splitCategories row.categories) := by
  refine ⟨?_, rfl, ?_⟩
  · have := runImport_create_mem submit uid rows 0 i row hget
    simpa using this
  · intro hok
    have := runImport_attaches submit uid rows 0 i row hget (by simpa using hok)
    simpa using this

/-- Witness for `c8_attach_per_category`: a row with categories
`"Food, Fun"` produces a create operation and exactly the attach operations
`["Food", "Fun"]`. -/
theorem c8_attach_per_category_witness :
    ApiOp.createExpense 0 (mkPayload "u1" ⟨"a", "v", JSNum.val 0, "2024-03-01", "", "",
      "Food, Fun"⟩) ∈
      (runImport (fun _ => StoreResult.ok) "u1" 0
        [⟨"a", "v", JSNum.val 0, "2024-03-01", "", "", "Food, Fun"⟩]).2.2.2 ∧
    (mkPayload "u1" ⟨"a", "v", JSNum.val 0, "2024-03-01", "", "", "Food, Fun"⟩).new_categories =
      splitCategories "Food, Fun" ∧
    ((fun _ => StoreResult.ok) 0 = StoreResult.ok →
      ((runImport (fun _ => StoreResult.ok) "u1" 0
        [⟨"a", "v", JSNum.val 0, "2024-03-01", "", "", "Food, Fun"⟩]).2.2.2.filterMap
          (attachProj 0)) = splitCategories "Food, Fun") :=
  c8_attach_per_category (fun _ => StoreResult.ok) "u1"
    [⟨"a", "v", JSNum.val 0, "2024-03-01", "", "", "Food, Fun"⟩] 0
    ⟨"a", "v", JSNum.val 0, "2024-03-01", "", "", "Food, Fun"⟩ rfl

/-- C9: with at least one parsed row and a selected user, a run in which every
submission succeeds clears the transient CSV input state (content, parsed
rows, month/year reset to the current date) and closes the modal; a run with
at least one failed submission leaves the CSV input state and the modal flag
untouched (only the aggregate error message is set). -/
theorem c9_state_reset (submit : Nat → StoreResult) (uid nowMonth nowYear : String)
    (st : UIState) (hNE : st.csvImportData.parsedData ≠ []) :
    ((∀ j, j < st.csvImportData.parsedData.length → submit j = StoreResult.ok) →
      ∃ oc, handleImportExpenses submit true uid nowMonth nowYear st =
        (⟨false, ⟨"", nowMonth, nowYear, [], []⟩, none⟩, some oc) ∧ oc.failed = 0) ∧
    ((∃ j e, j < st.csvImportData.parsedData.length ∧ submit j = StoreResult.err e) →
      ∃ st' oc, handleImportExpenses submit true uid nowMonth nowYear st = (st', some oc) ∧
        0 < oc.failed ∧
        st'.csvImportData = st.csvImportData ∧ st'.showCSVModal = st.showCSVModal) := by
  have hlen : ¬(st.csvImportData.parsedData.length = 0) := by
    intro h0
    exact hNE (List.length_eq_zero.mp h0)
  constructor
  · intro hall
    have hrun := runImport_all_ok submit uid st.csvImportData.parsedData 0
      (fun j hj => by simpa using hall j hj)
    unfold handleImportExpenses
    rw [if_neg hlen, if_neg (by simp)]
    rw [if_neg (by omega)]
    exact ⟨_, rfl, hrun.2⟩
  · intro ⟨j, e, hj, herr⟩
    have hrun := runImport_err_pos submit uid st.csvImportData.parsedData 0 j e hj
      (by simpa using herr)
    unfold handleImportExpenses
    rw [if_neg hlen, if_neg (by simp)]
    rw [if_pos (by omega)]
    exact ⟨_, _, rfl, hrun, rfl, rfl⟩

/-- Witness for `c9_state_reset`: applied once with an all-success submit
(state cleared) and once with a failing submit (state preserved). -/
theorem c9_state_reset_witness :
    (∃ oc, handleImportExpenses (fun _ => StoreResult.ok) true "u1" "4" "2025"
      ⟨true, ⟨"csv", "2", "2024", [⟨"a", "v", JSNum.val 0, "2024-03-01", "", "", ""⟩], []⟩,
        none⟩ =
      (⟨false, ⟨"", "4", "2025", [], []⟩, none⟩, some oc) ∧ oc.failed = 0) ∧
    (∃ st' oc, handleImportExpenses (fun _ => StoreResult.err StoreErr.nonError) true
      "u1" "4" "2025"
      ⟨true, ⟨"csv", "2", "2024", [⟨"a", "v", JSNum.val 0, "2024-03-01", "", "", ""⟩], []⟩,
        none⟩ = (st', some oc) ∧
      0 < oc.failed ∧
      st'.csvImportData = ⟨"csv", "2", "2024",
        [⟨"a", "v", JSNum.val 0, "2024-03-01", "", "", ""⟩], []⟩ ∧
      st'.showCSVModal = true) :=
  ⟨(c9_state_reset (fun _ => StoreResult.ok) "u1" "4" "2025"
      ⟨true, ⟨"csv", "2", "2024", [⟨"a", "v", JSNum.val 0, "2024-03-01", "", "", ""⟩], []⟩,
        none⟩ (by decide)).1 (fun j _ => rfl),
   (c9_state_reset (fun _ => StoreResult.err StoreErr.nonError) "u1" "4" "2025"
      ⟨true, ⟨"csv", "2", "2024", [⟨"a", "v", JSNum.val 0, "2024-03-01", "", "", ""⟩], []⟩,
        none⟩ (by decide)).2 ⟨0, StoreErr.nonError, by decide, rfl⟩⟩
